import Mathlib

/-!
Verification development for the three-particle / character-network
visualization (src/index.js and the near-duplicate variant src/unnamed/part_000).

The two algorithmic subsystems are embedded shallowly:

* the force-directed layout (`applyForceLayout`, `loadNetworkData`), translated
  from the source as a pure state-passing program.  The numeric carrier is kept
  generic (structure `Arith`): instantiating it at `arithReal` gives the
  exact-real reading of the arithmetic, instantiating it at `arithJS` gives an
  idealized JavaScript-number reading (exact real values extended with a `NaN`
  element that every operation propagates, `0/0 = NaN`, `sqrt` of a negative
  is `NaN`).  Rounding, overflow and signed infinities are not modelled: in
  this program every division whose divisor is zero also has a zero dividend
  (repulsion softens its distance by `0.1`; the attraction distance is a
  square root that vanishes only when all three components vanish), so in
  exact arithmetic `NaN` — never an infinity — is the faithful result of the
  unguarded divisions, and the concrete counterexamples below involve only
  exactly-representable values on which floating point computes exactly.

* the hover state machine (`onMouseMove`) and body creation
  (`createBodies`), with the highlight parameters kept generic
  (structure `HoverCfg`) because the highlighted color of the first variant is
  produced by the external three.js color pipeline; `hoverCfgP0` instantiates
  the second variant (plain `0xffffff`, scale `1.5`) concretely.

* the pick resolution used by `onMouseMove`.  The ray/sphere intersection and
  the sorting of hits live in three.js, outside this repository, so
  `intersectObjects` is modelled from the spec (hits sorted by ascending ray
  parameter); the handler itself takes the first element or reports no pick.
-/

namespace ThreeParticle

/-- Edge record: `{source, target}` from the raw data (`data.links`), kept
verbatim by `loadNetworkData`.  Indices refer to positions in the node list. -/
structure GEdge where
  source : Nat
  target : Nat
  deriving DecidableEq, Repr

/-- Node record over a numeric carrier `α`.  Mirrors the JS node objects after
`loadNetworkData` has initialized them: `id`/`name`/`group` identity data,
position `x y z`, velocity `vx vy vz`, and the per-iteration force accumulator
`fx fy fz` (bolted on by the first force reset in JS; present from the start
here, which is harmless because the layout writes them before reading them). -/
structure GNode (α : Type) where
  id : Nat
  name : String
  group : Nat
  x : α
  y : α
  z : α
  vx : α
  vy : α
  vz : α
  fx : α
  fy : α
  fz : α
  deriving DecidableEq, Repr

/-- The module-level `nodes` and `edges` arrays of the JS program. -/
structure Graph (α : Type) where
  nodes : List (GNode α)
  edges : List GEdge
  deriving DecidableEq, Repr

/-- Numeric carrier operations: the arithmetic actually used by
`applyForceLayout` (`+`, `-`, `*`, `/`, `Math.sqrt`) plus an interpretation of
the program's rational literals (`0`, `0.1`, `1000`, `0.9`). -/
structure Arith (α : Type) where
  add : α → α → α
  sub : α → α → α
  mul : α → α → α
  div : α → α → α
  sqrt : α → α
  ofQ : ℚ → α

/-- In-place update of `nodes[i]` (`nodes[i].fx += ...` and friends).  Indices
out of range leave the list unchanged; the layout only ever updates indices it
has just read successfully. -/
def setNode {α : Type} (ns : List (GNode α)) (i : Nat) (f : GNode α → GNode α) :
    List (GNode α) :=
  match ns[i]? with
  | some nd => ns.set i (f nd)
  | none => ns

/-- Force reset at the top of each layout iteration:
`node.fx = 0; node.fy = 0; node.fz = 0` for every node. -/
def resetForces {α : Type} (A : Arith α) (g : Graph α) : Graph α :=
  { g with nodes := g.nodes.map (fun nd =>
      { nd with fx := A.ofQ 0, fy := A.ofQ 0, fz := A.ofQ 0 }) }

/-- Index pairs visited by the repulsion double loop:
`i` from `0` to `n-1`, `j` from `i+1` to `n-1`, in source order. -/
def pairsUpTo (n : Nat) : List (Nat × Nat) :=
  (List.range n).flatMap (fun i =>
    ((List.range n).filter (fun j => i < j)).map (fun j => (i, j)))

/-- Body of the repulsion double loop for one pair `(i, j)`:
distance softened by `+ 0.1`, magnitude `1000 / distance²`, vector
`(Δ/distance) * force` added to `nodes[i]` and subtracted from `nodes[j]`. -/
def repulseUpdate {α : Type} (A : Arith α) (ns : List (GNode α)) (p : Nat × Nat) :
    List (GNode α) :=
  match ns[p.1]?, ns[p.2]? with
  | some ni, some nj =>
    let dx := A.sub ni.x nj.x
    let dy := A.sub ni.y nj.y
    let dz := A.sub ni.z nj.z
    let distance := A.add (A.sqrt (A.add (A.add (A.mul dx dx) (A.mul dy dy)) (A.mul dz dz)))
      (A.ofQ (1/10))
    let force := A.div (A.ofQ 1000) (A.mul distance distance)
    let fx := A.mul (A.div dx distance) force
    let fy := A.mul (A.div dy distance) force
    let fz := A.mul (A.div dz distance) force
    let ns1 := setNode ns p.1 (fun nd =>
      { nd with fx := A.add nd.fx fx, fy := A.add nd.fy fy, fz := A.add nd.fz fz })
    setNode ns1 p.2 (fun nd =>
      { nd with fx := A.sub nd.fx fx, fy := A.sub nd.fy fy, fz := A.sub nd.fz fz })
  | _, _ => ns

/-- Pairwise repulsion pass: the `i < j` double loop over all node pairs. -/
def repulsionPass {α : Type} (A : Arith α) (g : Graph α) : Graph α :=
  { g with nodes := (pairsUpTo g.nodes.length).foldl (repulseUpdate A) g.nodes }

/-- Body of the attraction loop for one edge.  A lookup of a missing node
(`nodes[edge.source]` is `undefined`) throws a TypeError in JS the moment a
property of it is read; this is the `Except.error` branch.  Note the complete
absence of any zero-distance guard: `distance` carries no softening term and
`dx / distance` is computed unconditionally. -/
def attractUpdate {α : Type} (A : Arith α) (ns : List (GNode α)) (e : GEdge) :
    Except String (List (GNode α)) :=
  match ns[e.source]?, ns[e.target]? with
  | some s, some t =>
    let dx := A.sub t.x s.x
    let dy := A.sub t.y s.y
    let dz := A.sub t.z s.z
    let distance := A.sqrt (A.add (A.add (A.mul dx dx) (A.mul dy dy)) (A.mul dz dz))
    let force := A.mul (A.ofQ (1/10)) distance
    let fx := A.mul (A.div dx distance) force
    let fy := A.mul (A.div dy distance) force
    let fz := A.mul (A.div dz distance) force
    let ns1 := setNode ns e.source (fun nd =>
      { nd with fx := A.add nd.fx fx, fy := A.add nd.fy fy, fz := A.add nd.fz fz })
    Except.ok (setNode ns1 e.target (fun nd =>
      { nd with fx := A.sub nd.fx fx, fy := A.sub nd.fy fy, fz := A.sub nd.fz fz }))
  | _, _ => Except.error "TypeError: cannot read properties of undefined"

/-- Attraction pass over the edge list (`edges.forEach`).  A thrown TypeError
stops the loop; the mutations already performed stay in place, so the pass
returns the nodes as mutated so far together with the error. -/
def attractFold {α : Type} (A : Arith α) (edges : List GEdge) (ns : List (GNode α)) :
    List (GNode α) × Option String :=
  match edges with
  | [] => (ns, none)
  | e :: rest =>
    match attractUpdate A ns e with
    | Except.ok ns1 => attractFold A rest ns1
    | Except.error msg => (ns, some msg)

/-- Integration pass: `vx = (vx + fx) * 0.9` (damping), then `x += vx`, using
the freshly damped velocity, per node and per component. -/
def integratePass {α : Type} (A : Arith α) (g : Graph α) : Graph α :=
  { g with nodes := g.nodes.map (fun nd =>
      let vx := A.mul (A.add nd.vx nd.fx) (A.ofQ (9/10))
      let vy := A.mul (A.add nd.vy nd.fy) (A.ofQ (9/10))
      let vz := A.mul (A.add nd.vz nd.fz) (A.ofQ (9/10))
      { nd with vx := vx, vy := vy, vz := vz,
                x := A.add nd.x vx, y := A.add nd.y vy, z := A.add nd.z vz }) }

/-- One layout iteration: reset forces, repulsion, attraction, integration.
If the attraction pass throws, the iteration stops there (the integration does
not run) and the error propagates. -/
def layoutStep {α : Type} (A : Arith α) (g : Graph α) : Graph α × Option String :=
  let g2 := repulsionPass A (resetForces A g)
  match attractFold A g2.edges g2.nodes with
  | (ns, none) => (integratePass A { g2 with nodes := ns }, none)
  | (ns, some msg) => ({ g2 with nodes := ns }, some msg)

/-- The `for (let iter = 0; iter < iterations; iter++)` loop: run `n`
iterations, stopping early only if an iteration throws. -/
def layoutRun {α : Type} (A : Arith α) : Nat → Graph α → Graph α × Option String
  | 0, g => (g, none)
  | n + 1, g =>
    match layoutStep A g with
    | (g1, none) => layoutRun A n g1
    | (g1, some msg) => (g1, some msg)

/-- The full `applyForceLayout`: `iterations = 300` fixed, no convergence
test. -/
def applyForceLayout {α : Type} (A : Arith α) (g : Graph α) : Graph α × Option String :=
  layoutRun A 300 g

/-- Written from the spec's words (section 4.2): one relaxation iteration is
`reset forces`, then `pairwise repulsion`, then `edge attraction`, then the
integration `velocity = (velocity + force) * 0.9; position += velocity` — as a
total function with no error branch, to express that a valid run never takes
one. -/
def specStep {α : Type} (A : Arith α) (g : Graph α) : Graph α :=
  let g2 := repulsionPass A (resetForces A g)
  integratePass A { g2 with nodes := (attractFold A g2.edges g2.nodes).1 }

/-- Raw node record from `miserables.json`: `{name, group}`. -/
structure RawNode where
  name : String
  group : Nat
  deriving DecidableEq, Repr

/-- Raw dataset: `data.nodes` and `data.links` as fetched. -/
structure RawData where
  nodes : List RawNode
  links : List GEdge
  deriving DecidableEq, Repr

/-- The observable state of `loadNetworkData` when it finishes: the
module-level `nodes`/`edges` arrays, whether `createNetworkVisualization` ran,
and the message passed to `console.error` by the `catch` block, if any. -/
structure LoadState (α : Type) where
  nodes : List (GNode α)
  edges : List GEdge
  vizCreated : Bool
  errorLogged : Option String
  deriving Repr

/-- Node initialization inside `loadNetworkData`: `node.id = i`, a supplied
position per node (the JS positions are unseeded `Math.random()` draws, so the
initial placement is an input here), and zero velocity. -/
def initNodes {α : Type} (A : Arith α) (raw : List RawNode) (pos : Nat → ℚ × ℚ × ℚ) :
    List (GNode α) :=
  raw.enum.map (fun ri =>
    { id := ri.1, name := ri.2.name, group := ri.2.group,
      x := A.ofQ (pos ri.1).1, y := A.ofQ (pos ri.1).2.1, z := A.ofQ (pos ri.1).2.2,
      vx := A.ofQ 0, vy := A.ofQ 0, vz := A.ofQ 0,
      fx := A.ofQ 0, fy := A.ofQ 0, fz := A.ofQ 0 })

/-- The `loadNetworkData` control flow after a successful fetch/parse: assign
the module-level arrays, initialize the nodes, run `applyForceLayout`; if it
throws, the `catch` logs the error and `createNetworkVisualization` never
runs — but the already-assigned arrays are not rolled back. -/
def loadNetworkData {α : Type} (A : Arith α) (data : RawData) (pos : Nat → ℚ × ℚ × ℚ) :
    LoadState α :=
  let g : Graph α := { nodes := initNodes A data.nodes pos, edges := data.links }
  match applyForceLayout A g with
  | (g1, none) => { nodes := g1.nodes, edges := g1.edges, vizCreated := true, errorLogged := none }
  | (g1, some msg) =>
    { nodes := g1.nodes, edges := g1.edges, vizCreated := false, errorLogged := some msg }

/-- Every edge references existing nodes.  `loadNetworkData` never checks
this; it is the hypothesis under which the layout cannot throw. -/
def edgesValid {α : Type} (g : Graph α) : Prop :=
  ∀ e ∈ g.edges, e.source < g.nodes.length ∧ e.target < g.nodes.length

/-- Idealized JavaScript number: an exact real, or `NaN`. -/
inductive JSNum where
  | nan : JSNum
  | num : ℝ → JSNum

/-- Whether a value is `NaN` (constructor test, evaluable on any term whose
head constructor is known). -/
def JSNum.isNaN : JSNum → Bool
  | JSNum.nan => true
  | JSNum.num _ => false

/-- Addition: `NaN` propagates, otherwise exact. -/
noncomputable def JSNum.add : JSNum → JSNum → JSNum
  | JSNum.nan, _ => JSNum.nan
  | JSNum.num _, JSNum.nan => JSNum.nan
  | JSNum.num a, JSNum.num b => JSNum.num (a + b)

/-- Subtraction: `NaN` propagates, otherwise exact. -/
noncomputable def JSNum.sub : JSNum → JSNum → JSNum
  | JSNum.nan, _ => JSNum.nan
  | JSNum.num _, JSNum.nan => JSNum.nan
  | JSNum.num a, JSNum.num b => JSNum.num (a - b)

/-- Multiplication: `NaN` propagates, otherwise exact. -/
noncomputable def JSNum.mul : JSNum → JSNum → JSNum
  | JSNum.nan, _ => JSNum.nan
  | JSNum.num _, JSNum.nan => JSNum.nan
  | JSNum.num a, JSNum.num b => JSNum.num (a * b)

/-- Division: `NaN` propagates and `0 / 0 = NaN`.  (JS produces a signed
infinity for `x / 0` with `x ≠ 0`, but every division in this program has a
zero dividend whenever its divisor is zero — see the passes above — so the
zero-divisor divisions the program can reach are exactly the `NaN` ones.) -/
noncomputable def JSNum.div : JSNum → JSNum → JSNum
  | JSNum.nan, _ => JSNum.nan
  | JSNum.num _, JSNum.nan => JSNum.nan
  | JSNum.num a, JSNum.num b => if b = 0 then JSNum.nan else JSNum.num (a / b)

/-- Square root: `Math.sqrt` returns `NaN` on `NaN` and on negatives. -/
noncomputable def JSNum.sqrt : JSNum → JSNum
  | JSNum.nan => JSNum.nan
  | JSNum.num a => if a < 0 then JSNum.nan else JSNum.num (Real.sqrt a)

/-- The layout arithmetic read as idealized JavaScript numbers. -/
noncomputable def arithJS : Arith JSNum :=
  { add := JSNum.add, sub := JSNum.sub, mul := JSNum.mul, div := JSNum.div,
    sqrt := JSNum.sqrt, ofQ := fun q => JSNum.num (q : ℝ) }

/-- The layout arithmetic read as exact real arithmetic (the "exact
arithmetic" reading; division by zero takes Lean's junk value, a case the
valid-distance hypotheses exclude). -/
noncomputable def arithReal : Arith ℝ :=
  { add := fun a b => a + b, sub := fun a b => a - b, mul := fun a b => a * b,
    div := fun a b => a / b, sqrt := Real.sqrt, ofQ := fun q => (q : ℝ) }

/-- Embed an exact-real node into the JavaScript-number world. -/
def numNode (nd : GNode ℝ) : GNode JSNum :=
  { id := nd.id, name := nd.name, group := nd.group,
    x := JSNum.num nd.x, y := JSNum.num nd.y, z := JSNum.num nd.z,
    vx := JSNum.num nd.vx, vy := JSNum.num nd.vy, vz := JSNum.num nd.vz,
    fx := JSNum.num nd.fx, fy := JSNum.num nd.fy, fz := JSNum.num nd.fz }

/-- Embed an exact-real graph into the JavaScript-number world. -/
def mapG (g : Graph ℝ) : Graph JSNum :=
  { nodes := g.nodes.map numNode, edges := g.edges }

/-- Positions of an edge's endpoints differ (so the attraction distance for
that edge is nonzero).  A self-edge always violates this. -/
def sepEdgeN (ns : List (GNode ℝ)) (e : GEdge) : Prop :=
  ∀ s t, ns[e.source]? = some s → ns[e.target]? = some t →
    ¬(s.x = t.x ∧ s.y = t.y ∧ s.z = t.z)

/-- Every edge of the graph joins nodes at distinct positions. -/
def SepEdges (g : Graph ℝ) : Prop :=
  ∀ e ∈ g.edges, sepEdgeN g.nodes e

/-- A pickable body: one mesh in `nodeObjects`.  `name`/`group` and the
`originalColor`/`originalScale` pair live in `userData` and are written once,
at creation; `color`/`scale` are the mutable visual state. -/
structure Body where
  name : String
  group : Nat
  originalColor : Nat
  originalScale : ℚ
  color : Nat
  scale : ℚ
  deriving DecidableEq, Repr

/-- Mouse cursor affordance (`document.body.style.cursor`). -/
inductive Cursor where
  | default : Cursor
  | pointer : Cursor
  deriving DecidableEq, Repr

/-- Hover-relevant mutable state: the `nodeObjects` visuals, the `hoveredNode`
reference (an index into `nodeObjects`), the tooltip, and the cursor. -/
structure HoverState where
  bodies : List Body
  hovered : Option Nat
  tooltipVisible : Bool
  tooltipName : String
  tooltipGroup : Nat
  tooltipPos : ℚ × ℚ
  cursor : Cursor
  deriving DecidableEq, Repr

/-- Observable actions performed by one `onMouseMove` call, in order. -/
inductive HoverAction where
  | highlightApplied : Nat → HoverAction
  | highlightReverted : Nat → HoverAction
  | tooltipShown : Nat → HoverAction
  | tooltipHidden : HoverAction
  deriving DecidableEq, Repr

/-- Variant-specific highlight parameters.  `highlightColor` maps the stored
original color to the hover color (`0xffffff` in the part_000 variant; a
whitening lerp computed by the external three.js color pipeline in the
index.js variant), `highlightScale` is the hover scale (`1.5` resp. `1.3`),
and `tipDx`/`tipDy` the tooltip offset from the pointer. -/
structure HoverCfg where
  highlightColor : Nat → Nat
  highlightScale : ℚ
  tipDx : ℚ
  tipDy : ℚ

/-- The part_000 variant's concrete highlight parameters: plain white
(`setHex(0xffffff)`), scale `1.5`, tooltip at `(clientX + 10, clientY - 10)`. -/
def hoverCfgP0 : HoverCfg :=
  { highlightColor := fun _ => 0xffffff, highlightScale := 3/2, tipDx := 10, tipDy := -10 }

/-- Update `bodies[i]` in place; out-of-range indices change nothing. -/
def setBody (bs : List Body) (i : Nat) (f : Body → Body) : List Body :=
  match bs[i]? with
  | some b => bs.set i (f b)
  | none => bs

/-- First half of `onMouseMove`: if a node is hovered, restore its material
color and scale from `userData.originalColor`/`userData.originalScale`, clear
`hoveredNode` and hide the tooltip. -/
def revertHovered (s : HoverState) : HoverState × List HoverAction :=
  match s.hovered with
  | some i =>
    ({ s with
        bodies := setBody s.bodies i (fun b =>
          { b with color := b.originalColor, scale := b.originalScale }),
        hovered := none,
        tooltipVisible := false },
      [HoverAction.highlightReverted i, HoverAction.tooltipHidden])
  | none => (s, [])

/-- Second half of `onMouseMove` when the raycast hit something: set
`hoveredNode`, apply the highlight color/scale, fill and show the tooltip next
to the pointer, switch the cursor to `pointer`. -/
def applyHover (cfg : HoverCfg) (i : Nat) (cx cy : ℚ) (s : HoverState) :
    HoverState × List HoverAction :=
  ({ s with
      bodies := setBody s.bodies i (fun b =>
        { b with color := cfg.highlightColor b.originalColor, scale := cfg.highlightScale }),
      hovered := some i,
      tooltipVisible := true,
      tooltipName := (match s.bodies[i]? with
        | some b => b.name
        | none => s.tooltipName),
      tooltipGroup := (match s.bodies[i]? with
        | some b => b.group
        | none => s.tooltipGroup),
      tooltipPos := (cx + cfg.tipDx, cy + cfg.tipDy),
      cursor := Cursor.pointer },
    [HoverAction.highlightApplied i, HoverAction.tooltipShown i])

/-- The state transition of one `onMouseMove` event, driven by the pick
result: always revert the previous hover first, then apply the new one if the
raycast hit a body, else reset the cursor. -/
def onMouseMove (cfg : HoverCfg) (pick : Option Nat) (cx cy : ℚ) (s : HoverState) :
    HoverState × List HoverAction :=
  let r1 := revertHovered s
  match pick with
  | some i =>
    let r2 := applyHover cfg i cx cy r1.1
    (r2.1, r1.2 ++ r2.2)
  | none => ({ r1.1 with cursor := Cursor.default }, r1.2)

/-- One pointer-move event: the pick result delivered by the raycaster and
the pointer's client coordinates. -/
structure PointerEvent where
  pick : Option Nat
  cx : ℚ
  cy : ℚ
  deriving DecidableEq, Repr

/-- Process a sequence of pointer-move events, accumulating the trace. -/
def runEvents (cfg : HoverCfg) (evs : List PointerEvent) (s : HoverState) :
    HoverState × List HoverAction :=
  match evs with
  | [] => (s, [])
  | ev :: rest =>
    let r := onMouseMove cfg ev.pick ev.cx ev.cy s
    let r2 := runEvents cfg rest r.1
    (r2.1, r.2 ++ r2.2)

/-- The index.js group color palette (Microsoft Fluent). -/
def groupColors : List Nat :=
  [0x0078d4, 0x107c10, 0xff4b4b, 0xffb900, 0x5c2d91,
   0x00bcf2, 0x498205, 0xd13438, 0xca5010, 0x8764b8,
   0x038387, 0x8e562e, 0x567c73, 0x486991, 0x744da9]

/-- Body creation in `createNetworkVisualization`: material color is
`groupColors[group % groupColors.length]`, the sphere scale is the default
`1`, and `userData` captures `originalColor`/`originalScale` once, equal to
those creation-time values. -/
def createBodies (raw : List RawNode) : List Body :=
  raw.map (fun r =>
    let c := groupColors.getD (r.group % groupColors.length) 0
    { name := r.name, group := r.group,
      originalColor := c, originalScale := 1, color := c, scale := 1 })

/-- State right after `createNetworkVisualization`: no hover, hidden tooltip
(the tooltip element is created with `display: none` and empty content),
default cursor. -/
def initHoverState (raw : List RawNode) : HoverState :=
  { bodies := createBodies raw, hovered := none, tooltipVisible := false,
    tooltipName := "", tooltipGroup := 0, tooltipPos := (0, 0),
    cursor := Cursor.default }

/-- Number of highlight applications in a trace. -/
def countApplied (tr : List HoverAction) : Nat :=
  (tr.filter (fun a =>
    match a with
    | HoverAction.highlightApplied _ => true
    | _ => false)).length

/-- Number of highlight reversions in a trace. -/
def countReverted (tr : List HoverAction) : Nat :=
  (tr.filter (fun a =>
    match a with
    | HoverAction.highlightReverted _ => true
    | _ => false)).length

/-- One raycast hit: the index of the hit body in `nodeObjects` and the ray
parameter (distance from the ray origin) at which its sphere is first met. -/
structure RayHit where
  body : Nat
  t : ℚ
  deriving DecidableEq, Repr

instance : IsTotal RayHit (fun a b => a.t ≤ b.t) :=
  ⟨fun a b => le_total a.t b.t⟩

instance : IsTrans RayHit (fun a b => a.t ≤ b.t) :=
  ⟨fun _ _ _ h1 h2 => le_trans h1 h2⟩

/-- Modelled from the spec: `raycaster.intersectObjects` lives in three.js
(outside this repository); per its contract and section 4.3 of the spec it
returns the intersections sorted (stably) by ascending distance along the
ray.  The input is the set of hits (one entry per body whose sphere the ray
meets). -/
def intersectObjects (hits : List RayHit) : List RayHit :=
  List.insertionSort (fun a b => a.t ≤ b.t) hits

/-- The pick resolution performed by `onMouseMove`: the first element of the
sorted intersection list if there is one (`intersects.length > 0` and
`intersects[0]`), otherwise no pick. -/
def resolvePick (hits : List RayHit) : Option RayHit :=
  (intersectObjects hits).head?

/-- Identity data of a node: the fields the layout must never touch. -/
def identOf {α : Type} (nd : GNode α) : Nat × String × Nat :=
  (nd.id, nd.name, nd.group)

/-- Position of a node. -/
def posOf {α : Type} (nd : GNode α) : α × α × α :=
  (nd.x, nd.y, nd.z)

/-- Creation-time data of a body: display data plus the captured
`originalColor`/`originalScale` pair. -/
def origOf (b : Body) : String × Nat × Nat × ℚ :=
  (b.name, b.group, b.originalColor, b.originalScale)

/-- Sum of one force component over all nodes. -/
def sumOf (proj : GNode ℝ → ℝ) (ns : List (GNode ℝ)) : ℝ :=
  (ns.map proj).sum

/-- Written from the spec's words: the Euclidean distance between two 3D
positions. -/
noncomputable def euclideanDist (x1 y1 z1 x2 y2 z2 : ℝ) : ℝ :=
  Real.sqrt ((x1 - x2) ^ 2 + (y1 - y2) ^ 2 + (z1 - z2) ^ 2)

/-- Written from the spec's words (section 4.2, step 2): for a pair of
distinct nodes `(i, j)`, `d` is the Euclidean distance plus the softening
constant `0.1`, the magnitude is `1000 / d²`, and the vector `(Δ/d) * mag`
(with `Δ = position_i - position_j`) is added to node `i`'s accumulator and
subtracted from node `j`'s. -/
noncomputable def specRepulseUpdate (ns : List (GNode ℝ)) (p : Nat × Nat) : List (GNode ℝ) :=
  match ns[p.1]?, ns[p.2]? with
  | some ni, some nj =>
    let d := euclideanDist ni.x ni.y ni.z nj.x nj.y nj.z + 1/10
    let mag := 1000 / d ^ 2
    let wx := (ni.x - nj.x) / d * mag
    let wy := (ni.y - nj.y) / d * mag
    let wz := (ni.z - nj.z) / d * mag
    let ns1 := setNode ns p.1 (fun nd =>
      { nd with fx := nd.fx + wx, fy := nd.fy + wy, fz := nd.fz + wz })
    setNode ns1 p.2 (fun nd =>
      { nd with fx := nd.fx - wx, fy := nd.fy - wy, fz := nd.fz - wz })
  | _, _ => ns

/-- The spec's repulsion pass: `specRepulseUpdate` over every unordered pair
of distinct nodes. -/
noncomputable def specRepulsionPass (g : Graph ℝ) : Graph ℝ :=
  { g with nodes := (pairsUpTo g.nodes.length).foldl specRepulseUpdate g.nodes }

/-- A single node sitting at the origin with zero velocity and force. -/
def nodeAtOrigin : GNode JSNum :=
  { id := 0, name := "A", group := 0,
    x := JSNum.num 0, y := JSNum.num 0, z := JSNum.num 0,
    vx := JSNum.num 0, vy := JSNum.num 0, vz := JSNum.num 0,
    fx := JSNum.num 0, fy := JSNum.num 0, fz := JSNum.num 0 }

/-- Concrete graph with a self-edge: one node, one edge from it to itself.
The attraction distance for the self-edge is exactly zero. -/
def gSelf : Graph JSNum :=
  { nodes := [nodeAtOrigin], edges := [{ source := 0, target := 0 }] }

/-- The same node after the NaN produced by the self-edge has propagated into
every numeric field. -/
def nodeAllNan : GNode JSNum :=
  { id := 0, name := "A", group := 0,
    x := JSNum.nan, y := JSNum.nan, z := JSNum.nan,
    vx := JSNum.nan, vy := JSNum.nan, vz := JSNum.nan,
    fx := JSNum.nan, fy := JSNum.nan, fz := JSNum.nan }

/-- The self-edge graph once its node has become all-NaN. -/
def gNan : Graph JSNum :=
  { nodes := [nodeAllNan], edges := [{ source := 0, target := 0 }] }

/-- Raw dataset with an out-of-range edge: one node, one link whose target
`5` references no node. -/
def rawBad : RawData :=
  { nodes := [{ name := "A", group := 0 }], links := [{ source := 0, target := 5 }] }

/-- An exact-real node at the origin. -/
noncomputable def nodeR0 : GNode ℝ :=
  { id := 0, name := "A", group := 0,
    x := 0, y := 0, z := 0, vx := 0, vy := 0, vz := 0, fx := 0, fy := 0, fz := 0 }

/-- An exact-real node at `(1, 0, 0)`. -/
noncomputable def nodeR1 : GNode ℝ :=
  { id := 1, name := "B", group := 1,
    x := 1, y := 0, z := 0, vx := 0, vy := 0, vz := 0, fx := 0, fy := 0, fz := 0 }

/-- A one-node, zero-edge exact-real graph. -/
noncomputable def gR1 : Graph ℝ :=
  { nodes := [nodeR0], edges := [] }

/-- A two-node graph whose single edge joins two distinct positions. -/
noncomputable def gR2 : Graph ℝ :=
  { nodes := [nodeR0, nodeR1], edges := [{ source := 0, target := 1 }] }

theorem length_setNode {α : Type} (ns : List (GNode α)) (i : Nat) (f : GNode α → GNode α) :
    (setNode ns i f).length = ns.length := by
  unfold setNode
  cases h : ns[i]? with
  | none => rfl
  | some nd => simp

theorem map_setNode_eq {α : Type} {β : Type} (ns : List (GNode α)) (i : Nat)
    (f : GNode α → GNode α) (proj : GNode α → β) (h : ∀ nd, proj (f nd) = proj nd) :
    (setNode ns i f).map proj = ns.map proj := by
  unfold setNode
  cases hi : ns[i]? with
  | none => rfl
  | some nd =>
    rw [List.map_set]
    have hnd : (ns.map proj)[i]? = some (proj nd) := by
      rw [List.getElem?_map, hi]; rfl
    have hlt : i < (ns.map proj).length := (List.getElem?_eq_some.mp hnd).1
    apply List.ext_getElem?
    intro n
    rcases eq_or_ne n i with rfl | hne
    · rw [List.getElem?_set_eq_of_lt _ hlt, h nd]
      exact hnd.symm
    · rw [List.getElem?_set_ne (Ne.symm hne)]

theorem foldl_map_invariant {α : Type} {β : Type} {γ : Type}
    (f : List (GNode α) → γ → List (GNode α)) (proj : GNode α → β)
    (l : List γ) (ns : List (GNode α))
    (h : ∀ ns1 c, (f ns1 c).map proj = ns1.map proj) :
    (l.foldl f ns).map proj = ns.map proj := by
  induction l generalizing ns with
  | nil => rfl
  | cons c rest ih => rw [List.foldl_cons, ih, h]

theorem map_identOf_repulseUpdate {α : Type} (A : Arith α) (ns : List (GNode α))
    (p : Nat × Nat) : (repulseUpdate A ns p).map identOf = ns.map identOf := by
  unfold repulseUpdate
  cases h1 : ns[p.1]? with
  | none => rfl
  | some ni =>
    cases h2 : ns[p.2]? with
    | none => rfl
    | some nj =>
      rw [map_setNode_eq, map_setNode_eq] <;> intro nd <;> rfl

theorem map_posOf_repulseUpdate {α : Type} (A : Arith α) (ns : List (GNode α))
    (p : Nat × Nat) : (repulseUpdate A ns p).map posOf = ns.map posOf := by
  unfold repulseUpdate
  cases h1 : ns[p.1]? with
  | none => rfl
  | some ni =>
    cases h2 : ns[p.2]? with
    | none => rfl
    | some nj =>
      rw [map_setNode_eq, map_setNode_eq] <;> intro nd <;> rfl

theorem map_identOf_attractUpdate {α : Type} (A : Arith α) (ns ns1 : List (GNode α))
    (e : GEdge) (h : attractUpdate A ns e = Except.ok ns1) :
    ns1.map identOf = ns.map identOf := by
  unfold attractUpdate at h
  cases h1 : ns[e.source]? with
  | none => rw [h1] at h; cases h2 : ns[e.target]? <;> rw [h2] at h <;> cases h
  | some s =>
    cases h2 : ns[e.target]? with
    | none => rw [h1, h2] at h; cases h
    | some t =>
      rw [h1, h2] at h
      cases h
      rw [map_setNode_eq, map_setNode_eq] <;> intro nd <;> rfl

theorem map_posOf_attractUpdate {α : Type} (A : Arith α) (ns ns1 : List (GNode α))
    (e : GEdge) (h : attractUpdate A ns e = Except.ok ns1) :
    ns1.map posOf = ns.map posOf := by
  unfold attractUpdate at h
  cases h1 : ns[e.source]? with
  | none => rw [h1] at h; cases h2 : ns[e.target]? <;> rw [h2] at h <;> cases h
  | some s =>
    cases h2 : ns[e.target]? with
    | none => rw [h1, h2] at h; cases h
    | some t =>
      rw [h1, h2] at h
      cases h
      rw [map_setNode_eq, map_setNode_eq] <;> intro nd <;> rfl

theorem map_identOf_attractFold {α : Type} (A : Arith α) (edges : List GEdge)
    (ns : List (GNode α)) :
    (attractFold A edges ns).1.map identOf = ns.map identOf := by
  induction edges generalizing ns with
  | nil => rfl
  | cons e rest ih =>
    unfold attractFold
    cases h : attractUpdate A ns e with
    | ok ns1 => rw [ih, map_identOf_attractUpdate A ns ns1 e h]
    | error msg => rfl

theorem map_posOf_attractFold {α : Type} (A : Arith α) (edges : List GEdge)
    (ns : List (GNode α)) :
    (attractFold A edges ns).1.map posOf = ns.map posOf := by
  induction edges generalizing ns with
  | nil => rfl
  | cons e rest ih =>
    unfold attractFold
    cases h : attractUpdate A ns e with
    | ok ns1 => rw [ih, map_posOf_attractUpdate A ns ns1 e h]
    | error msg => rfl

theorem map_identOf_resetForces {α : Type} (A : Arith α) (g : Graph α) :
    (resetForces A g).nodes.map identOf = g.nodes.map identOf := by
  unfold resetForces
  rw [List.map_map]
  rfl

theorem map_posOf_resetForces {α : Type} (A : Arith α) (g : Graph α) :
    (resetForces A g).nodes.map posOf = g.nodes.map posOf := by
  unfold resetForces
  rw [List.map_map]
  rfl

theorem map_identOf_repulsionPass {α : Type} (A : Arith α) (g : Graph α) :
    (repulsionPass A g).nodes.map identOf = g.nodes.map identOf := by
  unfold repulsionPass
  exact foldl_map_invariant _ _ _ _ (fun ns1 c => map_identOf_repulseUpdate A ns1 c)

theorem map_posOf_repulsionPass {α : Type} (A : Arith α) (g : Graph α) :
    (repulsionPass A g).nodes.map posOf = g.nodes.map posOf := by
  unfold repulsionPass
  exact foldl_map_invariant _ _ _ _ (fun ns1 c => map_posOf_repulseUpdate A ns1 c)

theorem map_identOf_integratePass {α : Type} (A : Arith α) (g : Graph α) :
    (integratePass A g).nodes.map identOf = g.nodes.map identOf := by
  unfold integratePass
  rw [List.map_map]
  rfl

theorem layoutStep_eq {α : Type} (A : Arith α) (g : Graph α) :
    layoutStep A g =
      match attractFold A g.edges (repulsionPass A (resetForces A g)).nodes with
      | (ns, none) => (integratePass A { nodes := ns, edges := g.edges }, none)
      | (ns, some msg) => ({ nodes := ns, edges := g.edges }, some msg) := rfl

theorem edges_layoutStep {α : Type} (A : Arith α) (g : Graph α) :
    (layoutStep A g).1.edges = g.edges := by
  rw [layoutStep_eq]
  rcases haf : attractFold A g.edges (repulsionPass A (resetForces A g)).nodes with ⟨ns, err⟩
  cases err with
  | none => rfl
  | some msg => rfl

theorem map_identOf_layoutStep {α : Type} (A : Arith α) (g : Graph α) :
    (layoutStep A g).1.nodes.map identOf = g.nodes.map identOf := by
  rw [layoutStep_eq]
  rcases haf : attractFold A g.edges (repulsionPass A (resetForces A g)).nodes with ⟨ns, err⟩
  have hns : ns.map identOf = g.nodes.map identOf := by
    have h0 := map_identOf_attractFold A g.edges (repulsionPass A (resetForces A g)).nodes
    rw [haf] at h0
    rw [show (ns, err).1 = ns from rfl] at h0
    rw [h0, map_identOf_repulsionPass, map_identOf_resetForces]
  cases err with
  | none =>
    show (integratePass A { nodes := ns, edges := g.edges }).nodes.map identOf = _
    rw [map_identOf_integratePass]
    exact hns
  | some msg => exact hns

theorem layoutRun_succ {α : Type} (A : Arith α) (n : Nat) (g : Graph α) :
    layoutRun A (n + 1) g =
      match layoutStep A g with
      | (g1, none) => layoutRun A n g1
      | (g1, some msg) => (g1, some msg) := rfl

theorem edges_layoutRun {α : Type} (A : Arith α) (n : Nat) (g : Graph α) :
    (layoutRun A n g).1.edges = g.edges := by
  induction n generalizing g with
  | zero => rfl
  | succ m ih =>
    rw [layoutRun_succ]
    rcases hstep : layoutStep A g with ⟨g1, err⟩
    have he : g1.edges = g.edges := by
      have := edges_layoutStep A g; rw [hstep] at this; exact this
    cases err with
    | none => rw [ih g1, he]
    | some msg => exact he

theorem map_identOf_layoutRun {α : Type} (A : Arith α) (n : Nat) (g : Graph α) :
    (layoutRun A n g).1.nodes.map identOf = g.nodes.map identOf := by
  induction n generalizing g with
  | zero => rfl
  | succ m ih =>
    rw [layoutRun_succ]
    rcases hstep : layoutStep A g with ⟨g1, err⟩
    have he : g1.nodes.map identOf = g.nodes.map identOf := by
      have := map_identOf_layoutStep A g; rw [hstep] at this; exact this
    cases err with
    | none => rw [ih g1, he]
    | some msg => exact he

theorem length_attractFold {α : Type} (A : Arith α) (edges : List GEdge)
    (ns : List (GNode α)) : (attractFold A edges ns).1.length = ns.length := by
  have h := map_identOf_attractFold A edges ns
  have := congrArg List.length h
  simpa using this

theorem attractFold_ok {α : Type} (A : Arith α) (edges : List GEdge)
    (ns : List (GNode α))
    (hV : ∀ e ∈ edges, e.source < ns.length ∧ e.target < ns.length) :
    (attractFold A edges ns).2 = none := by
  induction edges generalizing ns with
  | nil => rfl
  | cons e rest ih =>
    have he := hV e (List.mem_cons_self e rest)
    unfold attractFold
    cases h1 : ns[e.source]? with
    | none =>
      exact absurd (List.getElem?_eq_getElem he.1) (by rw [h1]; exact fun hc => by cases hc)
    | some s =>
      cases h2 : ns[e.target]? with
      | none =>
        exact absurd (List.getElem?_eq_getElem he.2) (by rw [h2]; exact fun hc => by cases hc)
      | some t =>
        have hupd : attractUpdate A ns e ≠ Except.error "TypeError: cannot read properties of undefined" → True := fun _ => trivial
        cases hu : attractUpdate A ns e with
        | error msg =>
          exfalso
          unfold attractUpdate at hu
          rw [h1, h2] at hu
          cases hu
        | ok ns1 =>
          have hlen : ns1.length = ns.length := by
            have := map_identOf_attractUpdate A ns ns1 e hu
            have := congrArg List.length this
            simpa using this
          exact ih ns1 (fun e1 he1 => by
            rw [hlen]
            exact hV e1 (List.mem_cons_of_mem e he1))

theorem layoutStep_ok {α : Type} (A : Arith α) (g : Graph α) (hV : edgesValid g) :
    layoutStep A g = (specStep A g, none) := by
  rw [layoutStep_eq]
  have hlen : (repulsionPass A (resetForces A g)).nodes.length = g.nodes.length := by
    have := map_identOf_repulsionPass A (resetForces A g)
    have h2 := map_identOf_resetForces A g
    have := congrArg List.length (this.trans h2)
    simpa using this
  have hok := attractFold_ok A g.edges (repulsionPass A (resetForces A g)).nodes
    (fun e he => by rw [hlen]; exact hV e he)
  rcases haf : attractFold A g.edges (repulsionPass A (resetForces A g)).nodes with ⟨ns, err⟩
  rw [haf] at hok
  cases err with
  | none =>
    have hx : (attractFold A g.edges (repulsionPass A (resetForces A g)).nodes).1 = ns := by
      rw [haf]
    show (integratePass A { nodes := ns, edges := g.edges }, none)
        = (integratePass A
            { nodes := (attractFold A g.edges (repulsionPass A (resetForces A g)).nodes).1,
              edges := g.edges }, none)
    rw [hx]
  | some msg => exact absurd hok (by simp)

theorem edges_specStep {α : Type} (A : Arith α) (g : Graph α) :
    (specStep A g).edges = g.edges := rfl

theorem map_identOf_specStep {α : Type} (A : Arith α) (g : Graph α) :
    (specStep A g).nodes.map identOf = g.nodes.map identOf := by
  unfold specStep
  rw [map_identOf_integratePass]
  show (attractFold A (repulsionPass A (resetForces A g)).edges
    (repulsionPass A (resetForces A g)).nodes).1.map identOf = _
  rw [map_identOf_attractFold, map_identOf_repulsionPass, map_identOf_resetForces]

theorem length_specStep {α : Type} (A : Arith α) (g : Graph α) :
    (specStep A g).nodes.length = g.nodes.length := by
  have := congrArg List.length (map_identOf_specStep A g)
  simpa using this

theorem edgesValid_specStep {α : Type} (A : Arith α) (g : Graph α) (hV : edgesValid g) :
    edgesValid (specStep A g) := by
  intro e he
  rw [edges_specStep] at he
  rw [length_specStep]
  exact hV e he

theorem edges_specStep_iterate {α : Type} (A : Arith α) (k : Nat) (g : Graph α) :
    ((specStep A)^[k] g).edges = g.edges := by
  induction k generalizing g with
  | zero => rfl
  | succ m ih =>
    rw [Function.iterate_succ_apply, ih, edges_specStep]

theorem edgesValid_specStep_iterate {α : Type} (A : Arith α) (k : Nat) (g : Graph α)
    (hV : edgesValid g) : edgesValid ((specStep A)^[k] g) := by
  induction k generalizing g with
  | zero => exact hV
  | succ m ih =>
    rw [Function.iterate_succ_apply]
    exact ih (specStep A g) (edgesValid_specStep A g hV)

theorem layoutRun_spec {α : Type} (A : Arith α) (n : Nat) (g : Graph α)
    (hV : edgesValid g) : layoutRun A n g = ((specStep A)^[n] g, none) := by
  induction n generalizing g with
  | zero => rfl
  | succ m ih =>
    rw [layoutRun_succ, layoutStep_ok A g hV]
    show layoutRun A m (specStep A g) = _
    rw [ih (specStep A g) (edgesValid_specStep A g hV)]
    rw [Function.iterate_succ_apply]

theorem setNode_cons_zero {α : Type} (a : GNode α) (l : List (GNode α))
    (f : GNode α → GNode α) : setNode (a :: l) 0 f = f a :: l := by
  unfold setNode
  rw [show (a :: l)[0]? = some a from by simp]
  rfl

theorem setNode_cons_succ {α : Type} (a : GNode α) (l : List (GNode α)) (i : Nat)
    (f : GNode α → GNode α) : setNode (a :: l) (i + 1) f = a :: setNode l i f := by
  unfold setNode
  rw [show (a :: l)[i + 1]? = l[i]? from by simp]
  cases h : l[i]? with
  | none => rfl
  | some nd => rfl

theorem sumOf_cons (proj : GNode ℝ → ℝ) (a : GNode ℝ) (l : List (GNode ℝ)) :
    sumOf proj (a :: l) = proj a + sumOf proj l := by
  simp [sumOf]

theorem sum_setNode_of_lt (proj : GNode ℝ → ℝ) (ns : List (GNode ℝ)) (i : Nat)
    (f : GNode ℝ → GNode ℝ) (c : ℝ) (h : ∀ nd, proj (f nd) = proj nd + c)
    (hi : i < ns.length) :
    sumOf proj (setNode ns i f) = sumOf proj ns + c := by
  induction ns generalizing i with
  | nil => cases hi
  | cons a l ih =>
    cases i with
    | zero =>
      rw [setNode_cons_zero, sumOf_cons, sumOf_cons, h a]
      ring
    | succ m =>
      rw [setNode_cons_succ, sumOf_cons, sumOf_cons, ih m (Nat.lt_of_succ_lt_succ hi)]
      ring

theorem sum_shift_twice (proj : GNode ℝ → ℝ) (ns : List (GNode ℝ)) (i j : Nat)
    (f1 f2 : GNode ℝ → GNode ℝ) (c : ℝ)
    (h1 : ∀ nd, proj (f1 nd) = proj nd + c) (h2 : ∀ nd, proj (f2 nd) = proj nd - c)
    (hi : i < ns.length) (hj : j < ns.length) :
    sumOf proj (setNode (setNode ns i f1) j f2) = sumOf proj ns := by
  have hlen : (setNode ns i f1).length = ns.length := length_setNode ns i f1
  rw [sum_setNode_of_lt proj _ j f2 (-c) (fun nd => by rw [h2 nd]; ring) (by rw [hlen]; exact hj)]
  rw [sum_setNode_of_lt proj ns i f1 c h1 hi]
  ring

theorem lt_length_of_getElem? {α : Type} (ns : List (GNode α)) (i : Nat) (nd : GNode α)
    (h : ns[i]? = some nd) : i < ns.length :=
  (List.getElem?_eq_some.mp h).1

theorem sums_repulseUpdate (ns : List (GNode ℝ)) (p : Nat × Nat) :
    sumOf (fun nd => nd.fx) (repulseUpdate arithReal ns p) = sumOf (fun nd => nd.fx) ns ∧
    sumOf (fun nd => nd.fy) (repulseUpdate arithReal ns p) = sumOf (fun nd => nd.fy) ns ∧
    sumOf (fun nd => nd.fz) (repulseUpdate arithReal ns p) = sumOf (fun nd => nd.fz) ns := by
  unfold repulseUpdate
  cases h1 : ns[p.1]? with
  | none => exact ⟨rfl, rfl, rfl⟩
  | some ni =>
    cases h2 : ns[p.2]? with
    | none => exact ⟨rfl, rfl, rfl⟩
    | some nj =>
      have hi := lt_length_of_getElem? ns p.1 ni h1
      have hj := lt_length_of_getElem? ns p.2 nj h2
      refine ⟨?_, ?_, ?_⟩ <;>
        exact sum_shift_twice _ ns p.1 p.2 _ _ _ (fun nd => rfl) (fun nd => rfl) hi hj

theorem sums_attractUpdate (ns ns1 : List (GNode ℝ)) (e : GEdge)
    (h : attractUpdate arithReal ns e = Except.ok ns1) :
    sumOf (fun nd => nd.fx) ns1 = sumOf (fun nd => nd.fx) ns ∧
    sumOf (fun nd => nd.fy) ns1 = sumOf (fun nd => nd.fy) ns ∧
    sumOf (fun nd => nd.fz) ns1 = sumOf (fun nd => nd.fz) ns := by
  unfold attractUpdate at h
  cases h1 : ns[e.source]? with
  | none => rw [h1] at h; cases h2 : ns[e.target]? <;> rw [h2] at h <;> cases h
  | some s =>
    cases h2 : ns[e.target]? with
    | none => rw [h1, h2] at h; cases h
    | some t =>
      rw [h1, h2] at h
      cases h
      have hi := lt_length_of_getElem? ns e.source s h1
      have hj := lt_length_of_getElem? ns e.target t h2
      refine ⟨?_, ?_, ?_⟩ <;>
        exact sum_shift_twice _ ns e.source e.target _ _ _ (fun nd => rfl) (fun nd => rfl) hi hj

theorem sums_attractFold (edges : List GEdge) (ns : List (GNode ℝ)) :
    sumOf (fun nd => nd.fx) (attractFold arithReal edges ns).1 = sumOf (fun nd => nd.fx) ns ∧
    sumOf (fun nd => nd.fy) (attractFold arithReal edges ns).1 = sumOf (fun nd => nd.fy) ns ∧
    sumOf (fun nd => nd.fz) (attractFold arithReal edges ns).1 = sumOf (fun nd => nd.fz) ns := by
  induction edges generalizing ns with
  | nil => exact ⟨rfl, rfl, rfl⟩
  | cons e rest ih =>
    unfold attractFold
    cases h : attractUpdate arithReal ns e with
    | ok ns1 =>
      have hu := sums_attractUpdate ns ns1 e h
      have hr := ih ns1
      exact ⟨hr.1.trans hu.1, hr.2.1.trans hu.2.1, hr.2.2.trans hu.2.2⟩
    | error msg => exact ⟨rfl, rfl, rfl⟩

theorem sums_repulseFold (ps : List (Nat × Nat)) (ns : List (GNode ℝ)) :
    sumOf (fun nd => nd.fx) (ps.foldl (repulseUpdate arithReal) ns)
      = sumOf (fun nd => nd.fx) ns ∧
    sumOf (fun nd => nd.fy) (ps.foldl (repulseUpdate arithReal) ns)
      = sumOf (fun nd => nd.fy) ns ∧
    sumOf (fun nd => nd.fz) (ps.foldl (repulseUpdate arithReal) ns)
      = sumOf (fun nd => nd.fz) ns := by
  induction ps generalizing ns with
  | nil => exact ⟨rfl, rfl, rfl⟩
  | cons p rest ih =>
    rw [List.foldl_cons]
    have hu := sums_repulseUpdate ns p
    have hr := ih (repulseUpdate arithReal ns p)
    exact ⟨hr.1.trans hu.1, hr.2.1.trans hu.2.1, hr.2.2.trans hu.2.2⟩

theorem sums_resetForces (g : Graph ℝ) :
    sumOf (fun nd => nd.fx) (resetForces arithReal g).nodes = 0 ∧
    sumOf (fun nd => nd.fy) (resetForces arithReal g).nodes = 0 ∧
    sumOf (fun nd => nd.fz) (resetForces arithReal g).nodes = 0 := by
  refine ⟨?_, ?_, ?_⟩ <;>
    simp [sumOf, resetForces, arithReal, List.map_map, Function.comp_def]

theorem JSNum.add_num (a b : ℝ) :
    JSNum.add (JSNum.num a) (JSNum.num b) = JSNum.num (a + b) := rfl

theorem JSNum.sub_num (a b : ℝ) :
    JSNum.sub (JSNum.num a) (JSNum.num b) = JSNum.num (a - b) := rfl

theorem JSNum.mul_num (a b : ℝ) :
    JSNum.mul (JSNum.num a) (JSNum.num b) = JSNum.num (a * b) := rfl

theorem JSNum.div_num (b : ℝ) (hb : b ≠ 0) (a : ℝ) :
    JSNum.div (JSNum.num a) (JSNum.num b) = JSNum.num (a / b) := by
  simp [JSNum.div, hb]

theorem JSNum.div_den_zero (a : ℝ) :
    JSNum.div (JSNum.num a) (JSNum.num 0) = JSNum.nan := by
  simp [JSNum.div]

theorem JSNum.sqrt_num (a : ℝ) (h : 0 ≤ a) :
    JSNum.sqrt (JSNum.num a) = JSNum.num (Real.sqrt a) := by
  simp [JSNum.sqrt, not_lt.mpr h]

theorem getElem?_map_numNode (ns : List (GNode ℝ)) (i : Nat) :
    (ns.map numNode)[i]? = (ns[i]?).map numNode := by
  rw [List.getElem?_map]

theorem setNode_map_numNode (ns : List (GNode ℝ)) (i : Nat)
    (fJ : GNode JSNum → GNode JSNum) (fR : GNode ℝ → GNode ℝ)
    (h : ∀ nd, fJ (numNode nd) = numNode (fR nd)) :
    setNode (ns.map numNode) i fJ = (setNode ns i fR).map numNode := by
  unfold setNode
  rw [List.getElem?_map]
  cases hi : ns[i]? with
  | none => rfl
  | some nd =>
    show (ns.map numNode).set i (fJ (numNode nd)) = _
    rw [h nd, List.map_set]

theorem setNode_addForce_comm (ns : List (GNode ℝ)) (i : Nat) (ax ay az : ℝ) :
    setNode (ns.map numNode) i (fun nd =>
      { nd with fx := JSNum.add nd.fx (JSNum.num ax),
                fy := JSNum.add nd.fy (JSNum.num ay),
                fz := JSNum.add nd.fz (JSNum.num az) })
      = (setNode ns i (fun nd =>
          { nd with fx := nd.fx + ax, fy := nd.fy + ay, fz := nd.fz + az })).map numNode :=
  setNode_map_numNode ns i _ _ (fun _ => rfl)

theorem setNode_subForce_comm (ns : List (GNode ℝ)) (i : Nat) (ax ay az : ℝ) :
    setNode (ns.map numNode) i (fun nd =>
      { nd with fx := JSNum.sub nd.fx (JSNum.num ax),
                fy := JSNum.sub nd.fy (JSNum.num ay),
                fz := JSNum.sub nd.fz (JSNum.num az) })
      = (setNode ns i (fun nd =>
          { nd with fx := nd.fx - ax, fy := nd.fy - ay, fz := nd.fz - az })).map numNode :=
  setNode_map_numNode ns i _ _ (fun _ => rfl)

theorem repulseUpdate_comm (ns : List (GNode ℝ)) (p : Nat × Nat) :
    repulseUpdate arithJS (ns.map numNode) p = (repulseUpdate arithReal ns p).map numNode := by
  unfold repulseUpdate
  rw [List.getElem?_map, List.getElem?_map]
  cases h1 : ns[p.1]? with
  | none => cases h2 : ns[p.2]? <;> rfl
  | some ni =>
    cases h2 : ns[p.2]? with
    | none => rfl
    | some nj =>
      have hs0 : (0:ℝ) ≤ (ni.x - nj.x) * (ni.x - nj.x) + (ni.y - nj.y) * (ni.y - nj.y)
          + (ni.z - nj.z) * (ni.z - nj.z) :=
        add_nonneg (add_nonneg (mul_self_nonneg _) (mul_self_nonneg _)) (mul_self_nonneg _)
      have hcpos : (0:ℝ) < ((1/10 : ℚ) : ℝ) := by norm_num
      have hd0 : Real.sqrt ((ni.x - nj.x) * (ni.x - nj.x) + (ni.y - nj.y) * (ni.y - nj.y)
          + (ni.z - nj.z) * (ni.z - nj.z)) + ((1/10 : ℚ) : ℝ) ≠ 0 :=
        ne_of_gt (add_pos_of_nonneg_of_pos (Real.sqrt_nonneg _) hcpos)
      have hdd0 : (Real.sqrt ((ni.x - nj.x) * (ni.x - nj.x) + (ni.y - nj.y) * (ni.y - nj.y)
          + (ni.z - nj.z) * (ni.z - nj.z)) + ((1/10 : ℚ) : ℝ))
          * (Real.sqrt ((ni.x - nj.x) * (ni.x - nj.x) + (ni.y - nj.y) * (ni.y - nj.y)
          + (ni.z - nj.z) * (ni.z - nj.z)) + ((1/10 : ℚ) : ℝ)) ≠ 0 :=
        mul_ne_zero hd0 hd0
      simp only [Option.map_some', arithJS, arithReal, numNode, JSNum.sub_num, JSNum.mul_num,
        JSNum.add_num, JSNum.sqrt_num _ hs0, JSNum.div_num _ hd0, JSNum.div_num _ hdd0,
        setNode_addForce_comm, setNode_subForce_comm]

theorem attractUpdate_comm (ns : List (GNode ℝ)) (e : GEdge) (hsep : sepEdgeN ns e) :
    attractUpdate arithJS (ns.map numNode) e
      = Except.map (List.map numNode) (attractUpdate arithReal ns e) := by
  unfold attractUpdate
  rw [List.getElem?_map, List.getElem?_map]
  cases h1 : ns[e.source]? with
  | none => cases h2 : ns[e.target]? <;> rfl
  | some s =>
    cases h2 : ns[e.target]? with
    | none => rfl
    | some t =>
      have hne := hsep s t h1 h2
      have hs0 : (0:ℝ) ≤ (t.x - s.x) * (t.x - s.x) + (t.y - s.y) * (t.y - s.y)
          + (t.z - s.z) * (t.z - s.z) :=
        add_nonneg (add_nonneg (mul_self_nonneg _) (mul_self_nonneg _)) (mul_self_nonneg _)
      have hpos : (0:ℝ) < (t.x - s.x) * (t.x - s.x) + (t.y - s.y) * (t.y - s.y)
          + (t.z - s.z) * (t.z - s.z) := by
        rcases lt_or_eq_of_le hs0 with h | h
        · exact h
        · exfalso
          apply hne
          have hax := mul_self_nonneg (t.x - s.x)
          have hay := mul_self_nonneg (t.y - s.y)
          have haz := mul_self_nonneg (t.z - s.z)
          refine ⟨?_, ?_, ?_⟩ <;> nlinarith
      have hd0 : Real.sqrt ((t.x - s.x) * (t.x - s.x) + (t.y - s.y) * (t.y - s.y)
          + (t.z - s.z) * (t.z - s.z)) ≠ 0 :=
        ne_of_gt (Real.sqrt_pos.mpr hpos)
      simp only [Option.map_some', arithJS, arithReal, numNode, JSNum.sub_num, JSNum.mul_num,
        JSNum.add_num, JSNum.sqrt_num _ hs0, JSNum.div_num _ hd0,
        setNode_addForce_comm, setNode_subForce_comm, Except.map]

theorem posEq_transfer (ns ns1 : List (GNode ℝ)) (e : GEdge)
    (hpos : ns1.map posOf = ns.map posOf) (hsep : sepEdgeN ns e) : sepEdgeN ns1 e := by
  intro s1 t1 h1 h2
  have hs : (ns[e.source]?).map posOf = some (posOf s1) := by
    rw [← List.getElem?_map, ← hpos, List.getElem?_map, h1]
    rfl
  have ht : (ns[e.target]?).map posOf = some (posOf t1) := by
    rw [← List.getElem?_map, ← hpos, List.getElem?_map, h2]
    rfl
  cases h3 : ns[e.source]? with
  | none => rw [h3] at hs; cases hs
  | some s0 =>
    cases h4 : ns[e.target]? with
    | none => rw [h4] at ht; cases ht
    | some t0 =>
      rw [h3] at hs
      rw [h4] at ht
      have hs' : posOf s0 = posOf s1 := by
        have := Option.some.inj hs
        exact this
      have ht' : posOf t0 = posOf t1 := by
        have := Option.some.inj ht
        exact this
      have h5 := hsep s0 t0 h3 h4
      intro hcontra
      apply h5
      have e1 : s0.x = s1.x := congrArg Prod.fst hs'
      have e2 : s0.y = s1.y := congrArg (fun q => q.2.1) hs'
      have e3 : s0.z = s1.z := congrArg (fun q => q.2.2) hs'
      have e4 : t0.x = t1.x := congrArg Prod.fst ht'
      have e5 : t0.y = t1.y := congrArg (fun q => q.2.1) ht'
      have e6 : t0.z = t1.z := congrArg (fun q => q.2.2) ht'
      exact ⟨by rw [e1, e4]; exact hcontra.1,
             by rw [e2, e5]; exact hcontra.2.1,
             by rw [e3, e6]; exact hcontra.2.2⟩

theorem attractFold_comm (edges : List GEdge) (ns : List (GNode ℝ))
    (hsep : ∀ e ∈ edges, sepEdgeN ns e) :
    attractFold arithJS edges (ns.map numNode)
      = ((attractFold arithReal edges ns).1.map numNode, (attractFold arithReal edges ns).2) := by
  induction edges generalizing ns with
  | nil => rfl
  | cons e rest ih =>
    unfold attractFold
    rw [attractUpdate_comm ns e (hsep e (List.mem_cons_self e rest))]
    cases hu : attractUpdate arithReal ns e with
    | error msg => rfl
    | ok ns1 =>
      show attractFold arithJS rest (ns1.map numNode) = _
      have hpos := map_posOf_attractUpdate arithReal ns ns1 e hu
      exact ih ns1 (fun e1 he1 => posEq_transfer ns ns1 e1 hpos
        (hsep e1 (List.mem_cons_of_mem e he1)))

theorem resetForces_comm (g : Graph ℝ) :
    resetForces arithJS (mapG g) = mapG (resetForces arithReal g) := by
  unfold resetForces mapG
  simp only [List.map_map]
  congr 1

theorem repulsionPass_comm (g : Graph ℝ) :
    repulsionPass arithJS (mapG g) = mapG (repulsionPass arithReal g) := by
  unfold repulsionPass mapG
  simp only [List.length_map]
  congr 1
  generalize pairsUpTo g.nodes.length = ps
  induction ps generalizing g with
  | nil => rfl
  | cons p rest ih =>
    rw [List.foldl_cons, List.foldl_cons, repulseUpdate_comm]
    exact ih { nodes := repulseUpdate arithReal g.nodes p, edges := g.edges }

theorem integratePass_comm (g : Graph ℝ) :
    integratePass arithJS (mapG g) = mapG (integratePass arithReal g) := by
  unfold integratePass mapG
  simp only [List.map_map]
  congr 1

theorem length_repulsionPass_reset (g : Graph ℝ) :
    (repulsionPass arithReal (resetForces arithReal g)).nodes.length = g.nodes.length := by
  have h1 := map_identOf_repulsionPass arithReal (resetForces arithReal g)
  have h2 := map_identOf_resetForces arithReal g
  have := congrArg List.length (h1.trans h2)
  simpa using this

theorem layoutStep_comm (g : Graph ℝ) (hV : edgesValid g) (hS : SepEdges g) :
    layoutStep arithJS (mapG g) = (mapG (specStep arithReal g), none) := by
  rw [layoutStep_eq]
  have hsep2 : ∀ e ∈ g.edges,
      sepEdgeN (repulsionPass arithReal (resetForces arithReal g)).nodes e := by
    intro e he
    apply posEq_transfer g.nodes _ e _ (hS e he)
    rw [map_posOf_repulsionPass, map_posOf_resetForces]
  have hok := attractFold_ok arithReal g.edges
    (repulsionPass arithReal (resetForces arithReal g)).nodes
    (fun e he => by rw [length_repulsionPass_reset]; exact hV e he)
  have hscrut : attractFold arithJS (mapG g).edges
      (repulsionPass arithJS (resetForces arithJS (mapG g))).nodes
      = ((attractFold arithReal g.edges
          (repulsionPass arithReal (resetForces arithReal g)).nodes).1.map numNode,
         (attractFold arithReal g.edges
          (repulsionPass arithReal (resetForces arithReal g)).nodes).2) := by
    rw [resetForces_comm, repulsionPass_comm]
    exact attractFold_comm g.edges
      (repulsionPass arithReal (resetForces arithReal g)).nodes hsep2
  rw [hscrut]
  rcases haf : attractFold arithReal g.edges
      (repulsionPass arithReal (resetForces arithReal g)).nodes with ⟨ns, err⟩
  rw [haf] at hok
  cases err with
  | some msg => exact absurd hok (by simp)
  | none =>
    show (integratePass arithJS { nodes := ns.map numNode, edges := g.edges }, none) = _
    have hmg : ({ nodes := ns.map numNode, edges := g.edges } : Graph JSNum)
        = mapG { nodes := ns, edges := g.edges } := rfl
    rw [hmg, integratePass_comm]
    have hspec : specStep arithReal g
        = integratePass arithReal { nodes := ns, edges := g.edges } := by
      have hx : (attractFold arithReal g.edges
          (repulsionPass arithReal (resetForces arithReal g)).nodes).1 = ns := by
        rw [haf]
      show integratePass arithReal
          { nodes := (attractFold arithReal g.edges
              (repulsionPass arithReal (resetForces arithReal g)).nodes).1,
            edges := g.edges } = _
      rw [hx]
    rw [hspec]

theorem layoutRun_comm (n : Nat) (g : Graph ℝ) (hV : edgesValid g)
    (hS : ∀ k, k < n → SepEdges ((specStep arithReal)^[k] g)) :
    layoutRun arithJS n (mapG g) = (mapG ((specStep arithReal)^[n] g), none) := by
  induction n generalizing g with
  | zero => rfl
  | succ m ih =>
    rw [layoutRun_succ, layoutStep_comm g hV (hS 0 (Nat.succ_pos m))]
    show layoutRun arithJS m (mapG (specStep arithReal g)) = _
    rw [ih (specStep arithReal g) (edgesValid_specStep arithReal g hV) (fun k hk => by
      have hx := hS (k + 1) (Nat.succ_lt_succ hk)
      rwa [Function.iterate_succ_apply] at hx)]
    rw [Function.iterate_succ_apply]

theorem pairsUpTo_one : pairsUpTo 1 = [] := by decide

theorem layoutRun_fixed {α : Type} (A : Arith α) (n : Nat) (g : Graph α)
    (h : layoutStep A g = (g, none)) : layoutRun A n g = (g, none) := by
  induction n with
  | zero => rfl
  | succ m ih =>
    rw [layoutRun_succ, h]
    exact ih

theorem layoutStep_gSelf : layoutStep arithJS gSelf = (gNan, none) := by
  rw [layoutStep_eq]
  norm_num [gSelf, gNan, nodeAtOrigin, nodeAllNan, resetForces, repulsionPass, pairsUpTo_one,
    attractFold, attractUpdate, integratePass, setNode, arithJS, JSNum.add, JSNum.sub,
    JSNum.mul, JSNum.div, JSNum.sqrt, Real.sqrt_zero]

theorem layoutStep_gNan : layoutStep arithJS gNan = (gNan, none) := by
  rw [layoutStep_eq]
  norm_num [gNan, nodeAllNan, resetForces, repulsionPass, pairsUpTo_one,
    attractFold, attractUpdate, integratePass, setNode, arithJS, JSNum.add, JSNum.sub,
    JSNum.mul, JSNum.div, JSNum.sqrt]

theorem attractUpdate_ok_bounds {α : Type} (A : Arith α) (ns ns1 : List (GNode α))
    (e : GEdge) (h : attractUpdate A ns e = Except.ok ns1) :
    e.source < ns.length ∧ e.target < ns.length := by
  unfold attractUpdate at h
  cases h1 : ns[e.source]? with
  | none => rw [h1] at h; cases h2 : ns[e.target]? <;> rw [h2] at h <;> cases h
  | some s =>
    cases h2 : ns[e.target]? with
    | none => rw [h1, h2] at h; cases h
    | some t =>
      exact ⟨lt_length_of_getElem? ns e.source s h1, lt_length_of_getElem? ns e.target t h2⟩

theorem attractFold_err {α : Type} (A : Arith α) (edges : List GEdge)
    (ns : List (GNode α))
    (hbad : ∃ e ∈ edges, ns.length ≤ e.source ∨ ns.length ≤ e.target) :
    (attractFold A edges ns).2 ≠ none := by
  induction edges generalizing ns with
  | nil =>
    rcases hbad with ⟨e, he, _⟩
    cases he
  | cons e rest ih =>
    unfold attractFold
    rcases hbad with ⟨e1, he1, hb1⟩
    cases hu : attractUpdate A ns e1 with
    | ok nsx =>
      have hbounds := attractUpdate_ok_bounds A ns nsx e1 hu
      rcases hb1 with h | h
      · exact absurd hbounds.1 (not_lt.mpr h)
      · exact absurd hbounds.2 (not_lt.mpr h)
    | error msgx =>
      rcases List.mem_cons.mp he1 with rfl | hmem
      · rw [hu]
        simp
      · cases hu2 : attractUpdate A ns e with
        | error msg => simp
        | ok ns1 =>
          have hlen : ns1.length = ns.length := by
            have hm := map_identOf_attractUpdate A ns ns1 e hu2
            have := congrArg List.length hm
            simpa using this
          exact ih ns1 ⟨e1, hmem, by rw [hlen]; exact hb1⟩

theorem layoutRun_of_step_err {α : Type} (A : Arith α) (n : Nat) (g : Graph α)
    (hstep : (layoutStep A g).2 ≠ none) (hn : 0 < n) :
    layoutRun A n g = layoutStep A g := by
  cases n with
  | zero => cases hn
  | succ m =>
    rw [layoutRun_succ]
    rcases hs : layoutStep A g with ⟨g1, err⟩
    cases err with
    | none => rw [hs] at hstep; simp at hstep
    | some msg => rfl

theorem length_initNodes {α : Type} (A : Arith α) (raw : List RawNode)
    (pos : Nat → ℚ × ℚ × ℚ) : (initNodes A raw pos).length = raw.length := by
  simp [initNodes]

theorem loadNetworkData_eq {α : Type} (A : Arith α) (data : RawData)
    (pos : Nat → ℚ × ℚ × ℚ) :
    loadNetworkData A data pos =
      match applyForceLayout A
          { nodes := initNodes A data.nodes pos, edges := data.links } with
      | (g1, none) =>
        { nodes := g1.nodes, edges := g1.edges, vizCreated := true, errorLogged := none }
      | (g1, some msg) =>
        { nodes := g1.nodes, edges := g1.edges, vizCreated := false,
          errorLogged := some msg } := rfl

theorem length_setBody (bs : List Body) (i : Nat) (f : Body → Body) :
    (setBody bs i f).length = bs.length := by
  unfold setBody
  cases h : bs[i]? with
  | none => rfl
  | some b => simp

theorem getElem?_setBody_ne (bs : List Body) (i j : Nat) (f : Body → Body)
    (h : j ≠ i) : (setBody bs i f)[j]? = bs[j]? := by
  unfold setBody
  cases hb : bs[i]? with
  | none => rfl
  | some b => exact List.getElem?_set_ne (Ne.symm h)

theorem getElem?_setBody_self (bs : List Body) (i : Nat) (f : Body → Body) (b : Body)
    (h : bs[i]? = some b) : (setBody bs i f)[i]? = some (f b) := by
  unfold setBody
  rw [h]
  exact List.getElem?_set_eq_of_lt _ (List.getElem?_eq_some.mp h).1

theorem getElem?_setBody_none (bs : List Body) (i : Nat) (f : Body → Body)
    (h : bs[i]? = none) : setBody bs i f = bs := by
  unfold setBody
  rw [h]

theorem setBody_setBody (bs : List Body) (i : Nat) (f g1 : Body → Body) :
    setBody (setBody bs i f) i g1 = setBody bs i (fun b => g1 (f b)) := by
  unfold setBody
  cases h : bs[i]? with
  | none => simp [h]
  | some b =>
    have hlt : i < bs.length := (List.getElem?_eq_some.mp h).1
    rw [List.getElem?_set_eq_of_lt _ (by simpa using hlt)]
    simp [List.set_set]

theorem map_setBody_eq {β : Type} (bs : List Body) (i : Nat) (f : Body → Body)
    (proj : Body → β) (h : ∀ b, proj (f b) = proj b) :
    (setBody bs i f).map proj = bs.map proj := by
  unfold setBody
  cases hi : bs[i]? with
  | none => rfl
  | some b =>
    rw [List.map_set]
    have hnd : (bs.map proj)[i]? = some (proj b) := by
      rw [List.getElem?_map, hi]; rfl
    have hlt : i < (bs.map proj).length := (List.getElem?_eq_some.mp hnd).1
    apply List.ext_getElem?
    intro n
    rcases eq_or_ne n i with rfl | hne
    · rw [List.getElem?_set_eq_of_lt _ hlt, h b]
      exact hnd.symm
    · rw [List.getElem?_set_ne (Ne.symm hne)]

theorem revertHovered_all (s : HoverState)
    (h1 : ∀ (i : Nat) (b : Body), s.bodies[i]? = some b → s.hovered ≠ some i →
      b.color = b.originalColor ∧ b.scale = b.originalScale) :
    ∀ (i : Nat) (b : Body), (revertHovered s).1.bodies[i]? = some b →
      b.color = b.originalColor ∧ b.scale = b.originalScale := by
  cases hh : s.hovered with
  | none =>
    have hrv : (revertHovered s).1 = s := by
      unfold revertHovered
      rw [hh]
    rw [hrv]
    intro i b hb
    exact h1 i b hb (by rw [hh]; exact fun hc => by cases hc)
  | some j =>
    have hrv : (revertHovered s).1
        = { s with
            bodies := setBody s.bodies j (fun b =>
              { b with color := b.originalColor, scale := b.originalScale }),
            hovered := none,
            tooltipVisible := false } := by
      unfold revertHovered
      rw [hh]
    rw [hrv]
    intro i b hb
    rcases eq_or_ne i j with rfl | hne
    · cases hb0 : s.bodies[i]? with
      | none =>
        rw [show (({ s with
            bodies := setBody s.bodies i (fun b =>
              { b with color := b.originalColor, scale := b.originalScale }),
            hovered := none,
            tooltipVisible := false } : HoverState)).bodies
          = setBody s.bodies i (fun b =>
              { b with color := b.originalColor, scale := b.originalScale }) from rfl,
          getElem?_setBody_none _ _ _ hb0, hb0] at hb
        cases hb
      | some b0 =>
        rw [show (({ s with
            bodies := setBody s.bodies i (fun b =>
              { b with color := b.originalColor, scale := b.originalScale }),
            hovered := none,
            tooltipVisible := false } : HoverState)).bodies
          = setBody s.bodies i (fun b =>
              { b with color := b.originalColor, scale := b.originalScale }) from rfl,
          getElem?_setBody_self _ _ _ _ hb0] at hb
        cases hb
        exact ⟨rfl, rfl⟩
    · rw [show (({ s with
            bodies := setBody s.bodies j (fun b =>
              { b with color := b.originalColor, scale := b.originalScale }),
            hovered := none,
            tooltipVisible := false } : HoverState)).bodies
          = setBody s.bodies j (fun b =>
              { b with color := b.originalColor, scale := b.originalScale }) from rfl,
          getElem?_setBody_ne _ _ _ _ hne] at hb
      exact h1 i b hb (by rw [hh]; exact fun hc => hne (by cases hc; rfl))

theorem map_origOf_revertHovered (s : HoverState) :
    (revertHovered s).1.bodies.map origOf = s.bodies.map origOf := by
  unfold revertHovered
  cases hh : s.hovered with
  | none => rfl
  | some j => exact map_setBody_eq _ _ _ _ (fun b => rfl)

theorem hovered_revertHovered (s : HoverState) : (revertHovered s).1.hovered = none := by
  unfold revertHovered
  cases hh : s.hovered with
  | none => exact hh
  | some j => rfl

theorem onMouseMove_inv (cfg : HoverCfg) (p : Option Nat) (cx cy : ℚ) (s : HoverState)
    (h1 : ∀ (i : Nat) (b : Body), s.bodies[i]? = some b → s.hovered ≠ some i →
      b.color = b.originalColor ∧ b.scale = b.originalScale) :
    (∀ (i : Nat) (b : Body), (onMouseMove cfg p cx cy s).1.bodies[i]? = some b →
      (onMouseMove cfg p cx cy s).1.hovered ≠ some i →
      b.color = b.originalColor ∧ b.scale = b.originalScale) ∧
    (onMouseMove cfg p cx cy s).1.bodies.map origOf = s.bodies.map origOf := by
  have hall := revertHovered_all s h1
  unfold onMouseMove
  cases p with
  | none =>
    refine ⟨?_, ?_⟩
    · intro i b hb _
      exact hall i b hb
    · exact map_origOf_revertHovered s
  | some k =>
    refine ⟨?_, ?_⟩
    · intro i b hb hi
      have hik : i ≠ k := fun hc => hi (by rw [hc]; rfl)
      unfold applyHover at hb
      rw [getElem?_setBody_ne _ _ _ _ hik] at hb
      exact hall i b hb
    · show (setBody (revertHovered s).1.bodies k (fun b =>
          { b with color := cfg.highlightColor b.originalColor,
                   scale := cfg.highlightScale })).map origOf = s.bodies.map origOf
      refine (map_setBody_eq _ _ _ origOf ?_).trans (map_origOf_revertHovered s)
      intro b
      rfl

theorem runEvents_inv (cfg : HoverCfg) (evs : List PointerEvent) (s : HoverState)
    (h1 : ∀ (i : Nat) (b : Body), s.bodies[i]? = some b → s.hovered ≠ some i →
      b.color = b.originalColor ∧ b.scale = b.originalScale) :
    (∀ (i : Nat) (b : Body), (runEvents cfg evs s).1.bodies[i]? = some b →
      (runEvents cfg evs s).1.hovered ≠ some i →
      b.color = b.originalColor ∧ b.scale = b.originalScale) ∧
    (runEvents cfg evs s).1.bodies.map origOf = s.bodies.map origOf := by
  induction evs generalizing s with
  | nil => exact ⟨h1, rfl⟩
  | cons ev rest ih =>
    unfold runEvents
    have hstep := onMouseMove_inv cfg ev.pick ev.cx ev.cy s h1
    have hrest := ih (onMouseMove cfg ev.pick ev.cx ev.cy s).1 hstep.1
    exact ⟨hrest.1, hrest.2.trans hstep.2⟩

theorem createBodies_at_originals (raw : List RawNode) :
    ∀ (i : Nat) (b : Body), (createBodies raw)[i]? = some b →
      b.color = b.originalColor ∧ b.scale = b.originalScale := by
  intro i b hb
  unfold createBodies at hb
  rw [List.getElem?_map] at hb
  cases hr : raw[i]? with
  | none => rw [hr] at hb; cases hb
  | some r =>
    rw [hr] at hb
    cases hb
    exact ⟨rfl, rfl⟩

theorem applyHover_again (cfg : HoverCfg) (i : Nat) (cx cy : ℚ) (u : HoverState) :
    (applyHover cfg i cx cy (revertHovered (applyHover cfg i cx cy u).1).1).1
      = (applyHover cfg i cx cy u).1 := by
  cases hb : u.bodies[i]? with
  | none =>
    unfold applyHover revertHovered
    simp [hb, getElem?_setBody_none, setBody_setBody]
  | some b0 =>
    unfold applyHover revertHovered
    simp [hb, getElem?_setBody_self, setBody_setBody]

theorem onMouseMove_same_pick_state (cfg : HoverCfg) (i : Nat) (cx cy : ℚ)
    (s : HoverState) :
    (onMouseMove cfg (some i) cx cy (onMouseMove cfg (some i) cx cy s).1).1
      = (onMouseMove cfg (some i) cx cy s).1 := by
  show (applyHover cfg i cx cy
      (revertHovered (applyHover cfg i cx cy (revertHovered s).1).1).1).1
      = (applyHover cfg i cx cy (revertHovered s).1).1
  exact applyHover_again cfg i cx cy (revertHovered s).1

theorem onMouseMove_same_pick_trace (cfg : HoverCfg) (i : Nat) (cx cy : ℚ)
    (s : HoverState) :
    countApplied (onMouseMove cfg (some i) cx cy
        (onMouseMove cfg (some i) cx cy s).1).2 = 1 ∧
    countReverted (onMouseMove cfg (some i) cx cy
        (onMouseMove cfg (some i) cx cy s).1).2 = 1 := by
  exact ⟨rfl, rfl⟩

theorem repulseUpdate_spec (ns : List (GNode ℝ)) (p : Nat × Nat) :
    repulseUpdate arithReal ns p = specRepulseUpdate ns p := by
  unfold repulseUpdate specRepulseUpdate euclideanDist
  cases h1 : ns[p.1]? with
  | none => cases h2 : ns[p.2]? <;> rfl
  | some ni =>
    cases h2 : ns[p.2]? with
    | none => rfl
    | some nj =>
      have hsq : (ni.x - nj.x) * (ni.x - nj.x) + (ni.y - nj.y) * (ni.y - nj.y)
          + (ni.z - nj.z) * (ni.z - nj.z)
          = (ni.x - nj.x) ^ 2 + (ni.y - nj.y) ^ 2 + (ni.z - nj.z) ^ 2 := by ring
      have hc : ((1/10 : ℚ) : ℝ) = 1/10 := by norm_num
      have hc2 : ((1000 : ℚ) : ℝ) = 1000 := by norm_num
      simp only [arithReal]
      rw [hsq, hc, hc2]
      simp only [← pow_two]

theorem resolvePick_none_iff (hits : List RayHit) : resolvePick hits = none ↔ hits = [] := by
  unfold resolvePick intersectObjects
  rw [List.head?_eq_none_iff]
  constructor
  · intro h
    have hp := List.perm_insertionSort (fun a b : RayHit => a.t ≤ b.t) hits
    rw [h] at hp
    exact hp.symm.eq_nil
  · intro h
    rw [h]
    rfl

theorem resolvePick_min (hits : List RayHit) (h0 : RayHit)
    (h : resolvePick hits = some h0) : h0 ∈ hits ∧ ∀ x ∈ hits, h0.t ≤ x.t := by
  unfold resolvePick intersectObjects at h
  have hs := List.sorted_insertionSort (fun a b : RayHit => a.t ≤ b.t) hits
  have hp := List.perm_insertionSort (fun a b : RayHit => a.t ≤ b.t) hits
  cases hlist : List.insertionSort (fun a b : RayHit => a.t ≤ b.t) hits with
  | nil =>
    rw [hlist] at h
    cases h
  | cons a tl =>
    rw [hlist] at h hs hp
    have ha : a = h0 := by
      have hh : (a :: tl).head? = some a := rfl
      rw [hh] at h
      exact Option.some.inj h
    cases ha
    refine ⟨hp.subset (List.mem_cons_self h0 tl), ?_⟩
    intro x hx
    rcases List.mem_cons.mp (hp.symm.subset hx) with rfl | hxtl
    · exact le_refl _
    · exact List.rel_of_sorted_cons hs x hxtl

/-- C6: in each layout iteration, for every unordered pair of distinct nodes
`(i, j)` the engine computes `d` as the Euclidean distance between their
positions plus the softening constant `0.1`, the magnitude `1000 / d²`, and
the vector `(Δ/d) * magnitude` with `Δ = position_i - position_j`, adding this
vector to node `i`'s accumulator and subtracting the same vector from node
`j`'s: the source-translated repulsion pass (invoked by every `layoutStep`)
coincides with the pass written from the spec's words. -/
theorem repulsionPass_matches_spec (g : Graph ℝ) :
    repulsionPass arithReal g = specRepulsionPass g := by
  unfold repulsionPass specRepulsionPass
  congr 1
  generalize pairsUpTo g.nodes.length = ps
  generalize g.nodes = ns
  induction ps generalizing ns with
  | nil => rfl
  | cons p rest ih =>
    rw [List.foldl_cons, List.foldl_cons, repulseUpdate_spec]
    exact ih _

/-- C7: the force layout always performs exactly 300 iterations with no
convergence test, each iteration being reset, pairwise repulsion, edge
attraction, then `velocity = (velocity + force) * 0.9; position += velocity`:
on any graph whose edges are in range (so the run cannot throw),
`applyForceLayout` is exactly the 300-fold iterate of the spec's step, with no
early exit taken. -/
theorem applyForceLayout_is_300_spec_iterations {α : Type} (A : Arith α)
    (g : Graph α) (hV : edgesValid g) :
    applyForceLayout A g = ((specStep A)^[300] g, none) :=
  layoutRun_spec A 300 g hV

/-- Witness for C7 at a concrete one-node, zero-edge graph. -/
theorem applyForceLayout_is_300_spec_iterations_witness :
    applyForceLayout arithReal gR1 = ((specStep arithReal)^[300] gR1, none) :=
  applyForceLayout_is_300_spec_iterations arithReal gR1 (by
    intro e he
    simp [gR1] at he)

/-- C9: in exact arithmetic, after the repulsion and attraction passes of a
single layout iteration over any graph, the component-wise sum of all force
accumulators is exactly zero (every contribution is added to one node and
subtracted from another; a self-edge contributes zero net force). -/
theorem iteration_force_sum_zero (g : Graph ℝ) :
    sumOf (fun nd => nd.fx) (attractFold arithReal
      (repulsionPass arithReal (resetForces arithReal g)).edges
      (repulsionPass arithReal (resetForces arithReal g)).nodes).1 = 0 ∧
    sumOf (fun nd => nd.fy) (attractFold arithReal
      (repulsionPass arithReal (resetForces arithReal g)).edges
      (repulsionPass arithReal (resetForces arithReal g)).nodes).1 = 0 ∧
    sumOf (fun nd => nd.fz) (attractFold arithReal
      (repulsionPass arithReal (resetForces arithReal g)).edges
      (repulsionPass arithReal (resetForces arithReal g)).nodes).1 = 0 := by
  have ha := sums_attractFold (repulsionPass arithReal (resetForces arithReal g)).edges
    (repulsionPass arithReal (resetForces arithReal g)).nodes
  have hr := sums_repulseFold (pairsUpTo (resetForces arithReal g).nodes.length)
    (resetForces arithReal g).nodes
  have h0 := sums_resetForces g
  refine ⟨?_, ?_, ?_⟩
  · rw [ha.1]
    show sumOf _ ((pairsUpTo (resetForces arithReal g).nodes.length).foldl
      (repulseUpdate arithReal) (resetForces arithReal g).nodes) = 0
    rw [hr.1, h0.1]
  · rw [ha.2.1]
    show sumOf _ ((pairsUpTo (resetForces arithReal g).nodes.length).foldl
      (repulseUpdate arithReal) (resetForces arithReal g).nodes) = 0
    rw [hr.2.1, h0.2.1]
  · rw [ha.2.2]
    show sumOf _ ((pairsUpTo (resetForces arithReal g).nodes.length).foldl
      (repulseUpdate arithReal) (resetForces arithReal g).nodes) = 0
    rw [hr.2.2, h0.2.2]

/-- C10: the force layout mutates only position, velocity and force fields:
for every input graph (even one on which the run throws), the `id`, `name`
and `group` of every node and the entire edge sequence are unchanged after
`applyForceLayout`. -/
theorem layout_preserves_identity_and_edges (g : Graph JSNum) :
    (applyForceLayout arithJS g).1.edges = g.edges ∧
    (applyForceLayout arithJS g).1.nodes.map identOf = g.nodes.map identOf :=
  ⟨edges_layoutRun arithJS 300 g, map_identOf_layoutRun arithJS 300 g⟩

/-- C1 counterexample: the zero-distance case of the edge-attraction step is
NOT guarded.  On the concrete graph `gSelf` (one node at the origin with a
self-edge, so `d = 0`), the attraction pass completes without any error or
skip and writes a NaN (`(0/0) * 0`) into the node's force accumulator —
refuting the claim that the computation never produces a NaN contribution. -/
theorem attraction_self_edge_writes_nan :
    (attractFold arithJS gSelf.edges gSelf.nodes).2 = none ∧
    (attractFold arithJS gSelf.edges gSelf.nodes).1.map (fun nd => nd.fx)
      = [JSNum.nan] := by
  constructor <;>
    norm_num [gSelf, nodeAtOrigin, attractFold, attractUpdate, setNode, arithJS,
      JSNum.add, JSNum.sub, JSNum.mul, JSNum.div, JSNum.sqrt, Real.sqrt_zero]

/-- C1 amended: the attraction step is not guarded, and the zero-distance case
does produce NaN (see the counterexample); what holds instead is that on
finite inputs the attraction pass produces finite (non-NaN) force
contributions whenever every edge is in range and joins nodes at distinct
positions — the only degenerate case is the unguarded `d = 0` one. -/
theorem attraction_no_nan_on_nonzero_distances (g : Graph ℝ)
    (hV : edgesValid g) (hS : SepEdges g) :
    (attractFold arithJS (mapG g).edges (mapG g).nodes).2 = none ∧
    ∀ nd ∈ (attractFold arithJS (mapG g).edges (mapG g).nodes).1,
      nd.fx.isNaN = false ∧ nd.fy.isNaN = false ∧ nd.fz.isNaN = false := by
  have hcomm := attractFold_comm g.edges g.nodes hS
  have hok := attractFold_ok arithReal g.edges g.nodes hV
  have hh : attractFold arithJS (mapG g).edges (mapG g).nodes
      = ((attractFold arithReal g.edges g.nodes).1.map numNode,
         (attractFold arithReal g.edges g.nodes).2) := hcomm
  rw [hh, hok]
  refine ⟨rfl, ?_⟩
  intro nd hnd
  rcases List.mem_map.mp hnd with ⟨m, hm, rfl⟩
  exact ⟨rfl, rfl, rfl⟩

/-- Witness for the amended C1 at a concrete two-node graph whose single edge
joins two distinct positions. -/
theorem attraction_no_nan_on_nonzero_distances_witness :
    (attractFold arithJS (mapG gR2).edges (mapG gR2).nodes).2 = none ∧
    ∀ nd ∈ (attractFold arithJS (mapG gR2).edges (mapG gR2).nodes).1,
      nd.fx.isNaN = false ∧ nd.fy.isNaN = false ∧ nd.fz.isNaN = false :=
  attraction_no_nan_on_nonzero_distances gR2
    (by
      intro e he
      have he2 : e = { source := 0, target := 1 } := by
        have hx : gR2.edges = [{ source := 0, target := 1 }] := rfl
        rw [hx] at he
        simpa using he
      rw [he2]
      constructor <;> norm_num [gR2, nodeR0, nodeR1])
    (by
      intro e he
      have he2 : e = { source := 0, target := 1 } := by
        have hx : gR2.edges = [{ source := 0, target := 1 }] := rfl
        rw [hx] at he
        simpa using he
      rw [he2]
      intro s t hs ht
      rw [show gR2.nodes = [nodeR0, nodeR1] from rfl] at hs ht
      have hs2 : s = nodeR0 := by
        have hx : some nodeR0 = some s := by simpa using hs
        exact (Option.some.inj hx).symm
      have ht2 : t = nodeR1 := by
        have hx : some nodeR1 = some t := by simpa using ht
        exact (Option.some.inj hx).symm
      intro hcontra
      have hx := hcontra.1
      rw [hs2, ht2] at hx
      exact absurd hx (by norm_num [nodeR0, nodeR1]))

/-- C2 counterexample: there is an input graph whose coordinates are all NaN
after the force layout completes its 300 iterations.  On `gSelf` (a node with
a self-edge) the first iteration's attraction divides zero by zero; the NaN
then propagates through integration into every coordinate and the layout
finishes without error in the all-NaN fixed point. -/
theorem layout_self_edge_ends_with_nan_coordinates :
    (applyForceLayout arithJS gSelf).1.nodes.map (fun nd => nd.x) = [JSNum.nan] ∧
    (applyForceLayout arithJS gSelf).2 = none := by
  have h : applyForceLayout arithJS gSelf = (gNan, none) := by
    show layoutRun arithJS 300 gSelf = (gNan, none)
    rw [show (300 : Nat) = 299 + 1 from rfl, layoutRun_succ, layoutStep_gSelf]
    exact layoutRun_fixed arithJS 299 gNan layoutStep_gNan
  rw [h]
  exact ⟨rfl, rfl⟩

theorem mapG_all_not_nan (g1 : Graph ℝ) :
    ∀ nd ∈ (mapG g1).nodes,
      nd.x.isNaN = false ∧ nd.y.isNaN = false ∧ nd.z.isNaN = false := by
  intro nd hnd
  rcases List.mem_map.mp hnd with ⟨m, hm, rfl⟩
  exact ⟨rfl, rfl, rfl⟩

/-- C2 amended: the no-NaN guarantee does not hold for every input graph (see
the counterexample); it holds for every graph with finite (non-NaN) initial
data, in-range edges, and no zero-length edge at any of the 300 iterations:
then the layout completes all iterations without error and no coordinate of
any node is NaN — indeed the whole run is the image of an exact-real run. -/
theorem layout_no_nan_on_nonzero_distances (g : Graph ℝ) (hV : edgesValid g)
    (hS : ∀ k, k < 300 → SepEdges ((specStep arithReal)^[k] g)) :
    (applyForceLayout arithJS (mapG g)).2 = none ∧
    ∀ nd ∈ (applyForceLayout arithJS (mapG g)).1.nodes,
      nd.x.isNaN = false ∧ nd.y.isNaN = false ∧ nd.z.isNaN = false := by
  have hmain : applyForceLayout arithJS (mapG g)
      = (mapG ((specStep arithReal)^[300] g), none) := layoutRun_comm 300 g hV hS
  rw [hmain]
  exact ⟨rfl, fun nd hnd => mapG_all_not_nan ((specStep arithReal)^[300] g) nd hnd⟩

/-- Witness for the amended C2 at a concrete one-node, zero-edge graph. -/
theorem layout_no_nan_on_nonzero_distances_witness :
    (applyForceLayout arithJS (mapG gR1)).2 = none ∧
    ∀ nd ∈ (applyForceLayout arithJS (mapG gR1)).1.nodes,
      nd.x.isNaN = false ∧ nd.y.isNaN = false ∧ nd.z.isNaN = false :=
  layout_no_nan_on_nonzero_distances gR1
    (by
      intro e he
      simp [gR1] at he)
    (fun k _ => by
      intro e he
      rw [edges_specStep_iterate] at he
      simp [gR1] at he)

/-- C3 counterexample: the same-body hover transition is not a no-op.  Feeding
the same pick result (body 0) in two consecutive pointer-move events performs
two highlight-apply actions — one per event — not one: the handler
unconditionally reverts and then re-applies the highlight on every event. -/
theorem hover_same_pick_two_applies :
    countApplied (runEvents hoverCfgP0
      [{ pick := some 0, cx := 5, cy := 5 }, { pick := some 0, cx := 5, cy := 5 }]
      (initHoverState [{ name := "A", group := 0 }, { name := "B", group := 1 }])).2 = 2 ∧
    countApplied (runEvents hoverCfgP0
      [{ pick := some 0, cx := 5, cy := 5 }, { pick := some 0, cx := 5, cy := 5 }]
      (initHoverState [{ name := "A", group := 0 }, { name := "B", group := 1 }])).2 ≠ 1 := by
  constructor
  · decide
  · decide

/-- C3 amended: the transition is idempotent in state but not in actions —
when the pointer-move event carries the same pick (and pointer coordinates)
as the previous one, the handler performs exactly one highlight-revert and one
highlight-apply (so two consecutive same-pick events perform two applies, not
one), and the resulting state equals the state after the first event. -/
theorem hover_same_pick_idempotent_state_not_actions (cfg : HoverCfg) (i : Nat)
    (cx cy : ℚ) (s : HoverState) :
    (onMouseMove cfg (some i) cx cy (onMouseMove cfg (some i) cx cy s).1).1
      = (onMouseMove cfg (some i) cx cy s).1 ∧
    countApplied (onMouseMove cfg (some i) cx cy
      (onMouseMove cfg (some i) cx cy s).1).2 = 1 ∧
    countReverted (onMouseMove cfg (some i) cx cy
      (onMouseMove cfg (some i) cx cy s).1).2 = 1 :=
  ⟨onMouseMove_same_pick_state cfg i cx cy s,
   (onMouseMove_same_pick_trace cfg i cx cy s).1,
   (onMouseMove_same_pick_trace cfg i cx cy s).2⟩

/-- C4: after any sequence of pointer-move events from the created state, at
most one body is in highlighted visual state (every body other than the
currently hovered one has its color and scale equal to its stored originals),
and the stored originals themselves are exactly the values captured once at
body creation — never recomputed or overwritten. -/
theorem hover_highlight_invariant (cfg : HoverCfg) (raw : List RawNode)
    (evs : List PointerEvent) :
    (∀ (i : Nat) (b : Body),
      (runEvents cfg evs (initHoverState raw)).1.bodies[i]? = some b →
      (runEvents cfg evs (initHoverState raw)).1.hovered ≠ some i →
      b.color = b.originalColor ∧ b.scale = b.originalScale) ∧
    (runEvents cfg evs (initHoverState raw)).1.bodies.map origOf
      = (createBodies raw).map origOf := by
  have h := runEvents_inv cfg evs (initHoverState raw)
    (fun i b hb _ => createBodies_at_originals raw i b hb)
  exact ⟨h.1, h.2⟩

/-- Witness for C4: a concrete hover-then-leave event sequence over one body,
with the invariant conclusions instantiated. -/
theorem hover_highlight_invariant_witness :
    (runEvents hoverCfgP0
      [{ pick := some 0, cx := 1, cy := 2 }, { pick := none, cx := 3, cy := 4 }]
      (initHoverState [{ name := "A", group := 0 }])).1.bodies.map origOf
      = (createBodies [{ name := "A", group := 0 }]).map origOf :=
  (hover_highlight_invariant hoverCfgP0 [{ name := "A", group := 0 }]
    [{ pick := some 0, cx := 1, cy := 2 }, { pick := none, cx := 3, cy := 4 }]).2

/-- C5 helper: on raw data containing an out-of-range edge the load never
validates anything up front; the error surfaces as a thrown TypeError inside
the first layout iteration, which the `catch` logs; visualization creation is
skipped, but the module-level graph arrays keep the fully-constructed graph. -/
theorem loadNetworkData_bad_edge_general {α : Type} (A : Arith α) (data : RawData)
    (pos : Nat → ℚ × ℚ × ℚ)
    (hbad : ∃ e ∈ data.links,
      data.nodes.length ≤ e.source ∨ data.nodes.length ≤ e.target) :
    (loadNetworkData A data pos).errorLogged ≠ none ∧
    (loadNetworkData A data pos).vizCreated = false ∧
    (loadNetworkData A data pos).nodes.length = data.nodes.length ∧
    (loadNetworkData A data pos).edges = data.links := by
  have hg0 : ({ nodes := initNodes A data.nodes pos, edges := data.links } : Graph α).nodes.length
      = data.nodes.length := by
    show (initNodes A data.nodes pos).length = data.nodes.length
    exact length_initNodes A data.nodes pos
  have hlenrr : (repulsionPass A (resetForces A
      { nodes := initNodes A data.nodes pos, edges := data.links })).nodes.length
      = data.nodes.length := by
    have h1 := map_identOf_repulsionPass A (resetForces A
      { nodes := initNodes A data.nodes pos, edges := data.links })
    have h2 := map_identOf_resetForces A
      ({ nodes := initNodes A data.nodes pos, edges := data.links } : Graph α)
    have h3 := congrArg List.length (h1.trans h2)
    simp only [List.length_map] at h3
    rw [h3]
    exact hg0
  have hstep : (layoutStep A
      { nodes := initNodes A data.nodes pos, edges := data.links }).2 ≠ none := by
    rw [layoutStep_eq]
    have hfe := attractFold_err A
      ({ nodes := initNodes A data.nodes pos, edges := data.links } : Graph α).edges
      (repulsionPass A (resetForces A
        { nodes := initNodes A data.nodes pos, edges := data.links })).nodes
      (by
        rcases hbad with ⟨e, he, hb⟩
        exact ⟨e, he, by rw [hlenrr]; exact hb⟩)
    rcases haf : attractFold A
        ({ nodes := initNodes A data.nodes pos, edges := data.links } : Graph α).edges
        (repulsionPass A (resetForces A
          { nodes := initNodes A data.nodes pos, edges := data.links })).nodes
      with ⟨ns, err⟩
    rw [haf] at hfe
    cases err with
    | none => exact absurd rfl hfe
    | some m => simp
  have hrun : applyForceLayout A
      { nodes := initNodes A data.nodes pos, edges := data.links }
      = layoutStep A { nodes := initNodes A data.nodes pos, edges := data.links } :=
    layoutRun_of_step_err A 300 _ hstep (by norm_num)
  rw [loadNetworkData_eq, hrun]
  rcases hs : layoutStep A { nodes := initNodes A data.nodes pos, edges := data.links }
    with ⟨g1, err⟩
  cases err with
  | none =>
    rw [hs] at hstep
    exact absurd rfl hstep
  | some msg =>
    refine ⟨by simp, rfl, ?_, ?_⟩
    · have hlm := map_identOf_layoutStep A
        { nodes := initNodes A data.nodes pos, edges := data.links }
      rw [hs] at hlm
      have hlen := congrArg List.length hlm
      simp only [List.length_map] at hlen
      show g1.nodes.length = data.nodes.length
      rw [hlen]
      exact hg0
    · have hed := edges_layoutStep A
        { nodes := initNodes A data.nodes pos, edges := data.links }
      rw [hs] at hed
      exact hed

/-- C5 counterexample: on concrete raw data whose single link references the
nonexistent node 5, loading reports an error (the bad edge is not silently
dropped) and skips visualization — but the module-level `nodes` and `edges`
arrays still hold the constructed graph, refuting "fails fast at load time,
no partial graph is ever built". -/
theorem load_bad_edge_graph_still_built :
    (loadNetworkData arithJS rawBad (fun _ => (0, 0, 0))).errorLogged ≠ none ∧
    (loadNetworkData arithJS rawBad (fun _ => (0, 0, 0))).vizCreated = false ∧
    (loadNetworkData arithJS rawBad (fun _ => (0, 0, 0))).nodes ≠ [] ∧
    (loadNetworkData arithJS rawBad (fun _ => (0, 0, 0))).edges ≠ [] := by
  have h := loadNetworkData_bad_edge_general arithJS rawBad (fun _ => (0, 0, 0))
    ⟨{ source := 0, target := 5 }, by simp [rawBad], by simp [rawBad]⟩
  refine ⟨h.1, h.2.1, ?_, ?_⟩
  · intro hc
    have hx := h.2.2.1
    rw [hc] at hx
    simp [rawBad] at hx
  · rw [h.2.2.2]
    simp [rawBad]

/-- C5 amended: an out-of-range edge reference does make the load fail with an
error and abort visualization — the bad edge is never silently dropped — but
the failure is a TypeError thrown during the first layout iteration, not a
load-time validation, and the module-level graph (all nodes, all edges,
including the bad one) remains fully built when the error is caught. -/
theorem load_bad_edge_fails_during_layout {α : Type} (A : Arith α) (data : RawData)
    (pos : Nat → ℚ × ℚ × ℚ)
    (hbad : ∃ e ∈ data.links,
      data.nodes.length ≤ e.source ∨ data.nodes.length ≤ e.target) :
    (loadNetworkData A data pos).errorLogged ≠ none ∧
    (loadNetworkData A data pos).vizCreated = false ∧
    (loadNetworkData A data pos).nodes.length = data.nodes.length ∧
    (loadNetworkData A data pos).edges = data.links :=
  loadNetworkData_bad_edge_general A data pos hbad

/-- Witness for the amended C5 at the concrete bad dataset. -/
theorem load_bad_edge_fails_during_layout_witness :
    (loadNetworkData arithJS rawBad (fun _ => (1, 2, 3))).errorLogged ≠ none ∧
    (loadNetworkData arithJS rawBad (fun _ => (1, 2, 3))).vizCreated = false ∧
    (loadNetworkData arithJS rawBad (fun _ => (1, 2, 3))).nodes.length
      = rawBad.nodes.length ∧
    (loadNetworkData arithJS rawBad (fun _ => (1, 2, 3))).edges = rawBad.links :=
  load_bad_edge_fails_during_layout arithJS rawBad (fun _ => (1, 2, 3))
    ⟨{ source := 0, target := 5 }, by simp [rawBad], by simp [rawBad]⟩

/-- C8: the pick resolver returns the body whose sphere the ray meets at the
smallest ray parameter (nearest the ray origin), and no pick when the ray
meets nothing; in particular, of two bodies at parameters 5.0 and 10.0 along
the same ray (listed in either order) it returns the one at 5.0. -/
theorem resolvePick_nearest (hits : List RayHit) (a b : Nat) :
    (resolvePick hits = none ↔ hits = []) ∧
    (∀ h0 : RayHit, resolvePick hits = some h0 → h0 ∈ hits ∧ ∀ x ∈ hits, h0.t ≤ x.t) ∧
    resolvePick [{ body := a, t := 5 }, { body := b, t := 10 }]
      = some { body := a, t := 5 } ∧
    resolvePick [{ body := b, t := 10 }, { body := a, t := 5 }]
      = some { body := a, t := 5 } := by
  refine ⟨resolvePick_none_iff hits, resolvePick_min hits, ?_, ?_⟩
  · norm_num [resolvePick, intersectObjects, List.insertionSort, List.orderedInsert]
  · norm_num [resolvePick, intersectObjects, List.insertionSort, List.orderedInsert]

/-- Witness for C8: the two-body tie-break instantiated concretely. -/
theorem resolvePick_nearest_witness :
    resolvePick [{ body := 0, t := 5 }, { body := 1, t := 10 }]
      = some { body := 0, t := 5 } :=
  (resolvePick_nearest [] 0 1).2.2.1

end ThreeParticle